import Mathlib

/-!
Verification of the NewsPulse signal-generation engine.

The Python source (src/api/app.py for the crypto engine, src/api/commodities.py
for the commodities engine) is shallowly embedded here:

* IEEE floats are modelled as real numbers together with an explicit NaN value:
  PyFloat is Option Real, where none models NaN.  Arithmetic propagates NaN
  exactly as numpy does; comparisons against NaN are False, as in Python.
* A cell of a loosely typed row is a FieldVal: the key can be absent from the
  row (missing), present holding NaN (nan), or present holding a number (num).
* Python float division raises ZeroDivisionError when the denominator is the
  float zero (even for a NaN numerator); it returns NaN when the denominator
  is NaN.  The embedding of a division whose denominator can be zero is ndiv,
  returning Except Unit PyFloat, and fallible code is threaded through Except.
* Python round(x, 2) is modelled as rounding to the nearest multiple of 1/100
  (Mathlib round, i.e. half-up; the sources never hit an exact tie in any of
  the concrete scenarios below).
* pandas sort_values(["Ticker", "Date"]) is a stable lexicographic sort,
  modelled by insertion sort with a non-strict lexicographic comparison;
  groupby("Ticker").last() takes, per column, the last non-null entry of each
  consecutive run of equal tickers (pandas skipna behaviour), modelled by
  groupRuns and lastNonNull.
-/

namespace NewsPulse

/-- A Python/numpy float: none models NaN, some r a finite real. -/
abbrev PyFloat := Option ℝ

/-- NaN-propagating addition. -/
noncomputable def padd : PyFloat → PyFloat → PyFloat
  | some a, some b => some (a + b)
  | _, _ => none

/-- NaN-propagating subtraction. -/
noncomputable def psub : PyFloat → PyFloat → PyFloat
  | some a, some b => some (a - b)
  | _, _ => none

/-- NaN-propagating multiplication. -/
noncomputable def pmul : PyFloat → PyFloat → PyFloat
  | some a, some b => some (a * b)
  | _, _ => none

/-- NaN-propagating absolute value (abs in the sources). -/
noncomputable def pabs : PyFloat → PyFloat
  | some a => some |a|
  | none => none

/-- Python max(a, b): returns b exactly when b > a.  Comparisons with NaN are
False, so max(NaN, y) = NaN and max(x, NaN) = x, matching CPython. -/
noncomputable def pymax : PyFloat → PyFloat → PyFloat
  | some a, some b => if a < b then some b else some a
  | none, _ => none
  | some a, none => some a

/-- Python strict greater-than on floats: False whenever either side is NaN. -/
noncomputable def pygtb : PyFloat → PyFloat → Bool
  | some a, some b => decide (b < a)
  | _, _ => false

/-- Python division.  A float-zero denominator raises ZeroDivisionError (the
error case), whatever the numerator; a NaN denominator yields NaN. -/
noncomputable def ndiv (a b : PyFloat) : Except Unit PyFloat :=
  match b with
  | none => .ok none
  | some d =>
    if d = 0 then .error () else
      match a with
      | some x => .ok (some (x / d))
      | none => .ok none

/-- Python round(x, 2), on the real model. -/
noncomputable def pround2 : PyFloat → PyFloat
  | some x => some ((round (x * 100) : ℤ) / 100)
  | none => none

/-- The sigmoid of both sources: 1 / (1 + exp (-x)). -/
noncomputable def sigmoidR (x : ℝ) : ℝ := 1 / (1 + Real.exp (-x))

/-- Lifted sigmoid; numpy gives sigmoid(NaN) = NaN. -/
noncomputable def psigmoid : PyFloat → PyFloat
  | some x => some (sigmoidR x)
  | none => none

/-- clamp01 of both sources: min(max(x, 0), 1) (np.clip(x, 0, 1) is the
same function).  numpy maximum/minimum propagate NaN. -/
noncomputable def clamp01R (x : ℝ) : ℝ := min (max x 0) 1

/-- Lifted clamp01. -/
noncomputable def pclamp01 : PyFloat → PyFloat
  | some x => some (clamp01R x)
  | none => none

/-- The epsilon guard of both sources. -/
noncomputable def eps : ℝ := 1 / 1000000000

/-- One cell of a loosely typed row: the key can be absent, hold NaN, or hold
a number. -/
inductive FieldVal where
  | missing
  | nan
  | num (r : ℝ)

/-- row.get(key, np.nan): the default NaN when the key is absent, otherwise
the stored value (NaN included). -/
noncomputable def FieldVal.get : FieldVal → PyFloat
  | .missing => none
  | .nan => none
  | .num r => some r

/-- Whether the cell is null in the pandas sense (absent or NaN). -/
def FieldVal.isNull : FieldVal → Bool
  | .num _ => false
  | _ => true

/-- safe_val of both sources: float(row.get(key, default) or default).
Python `or` falls back to the default when the stored value is falsy, i.e.
the float zero; NaN is truthy and passes through. -/
noncomputable def safeVal : FieldVal → PyFloat → PyFloat
  | .missing, d => d
  | .nan, _ => none
  | .num r, d => if r = 0 then d else some r

/-- One snapshot row.  Ticker and Date are the always-present sort keys;
the indicator columns are loosely typed cells. -/
@[ext]
structure Row where
  ticker : String
  date : Int
  close : FieldVal
  ema20 : FieldVal
  macd : FieldVal
  rsi : FieldVal
  atr : FieldVal
  vol : FieldVal

/-- The decision enum. -/
inductive Signal where
  | buy
  | sell
  | hold
deriving DecidableEq, Repr

/-- decide_signal of src/api/app.py (crypto): raw row.get access, NaN guard,
then the Buy/Sell rule chain. -/
noncomputable def decideSignal (row : Row) : Signal :=
  match row.close.get, row.ema20.get, row.macd.get, row.rsi.get with
  | some c, some e, some m, some r =>
    if c > e ∧ m > 0 ∧ r < 70 then .buy
    else if c < e ∧ m < 0 ∧ r > 30 then .sell
    else .hold
  | _, _, _, _ => .hold

/-- decide_signal of src/api/commodities.py: identical rule chain but the
fields are read through safe_val (default NaN), so a stored zero also
becomes NaN. -/
noncomputable def decideSignalC (row : Row) : Signal :=
  match safeVal row.close none, safeVal row.ema20 none,
        safeVal row.macd none, safeVal row.rsi none with
  | some c, some e, some m, some r =>
    if c > e ∧ m > 0 ∧ r < 70 then .buy
    else if c < e ∧ m < 0 ∧ r > 30 then .sell
    else .hold
  | _, _, _, _ => .hold

/-- The classifier exactly as the spec words it: Hold when Close, EMA_20,
MACD or RSI_14 is missing/NaN, else the Buy rule, else the Sell rule, else
Hold. -/
noncomputable def classifySpec (row : Row) : Signal :=
  match row.close, row.ema20, row.macd, row.rsi with
  | .num c, .num e, .num m, .num r =>
    if c > e ∧ m > 0 ∧ r < 70 then .buy
    else if c < e ∧ m < 0 ∧ r > 30 then .sell
    else .hold
  | _, _, _, _ => .hold

/-- Trend sub-score of compute_confidence (app.py lines 78-83): fixed 0.5
when Close or EMA_20 is NaN, else clamp01(sigmoid(((Close - EMA_20) /
(EMA_20 + eps)) * 8)). -/
noncomputable def trendScoreE (row : Row) : Except Unit PyFloat :=
  match safeVal row.close none, safeVal row.ema20 none with
  | some c, some e =>
    match ndiv (some (c - e)) (some (e + eps)) with
    | .error u => .error u
    | .ok rel => .ok (pclamp01 (psigmoid (pmul rel (some 8))))
  | _, _ => .ok (some 0.5)

/-- Momentum sub-score (app.py lines 85-86):
clamp01(sigmoid(MACD / (abs(Close) * 0.0005 + eps))). -/
noncomputable def macdScoreE (row : Row) : Except Unit PyFloat :=
  match ndiv (safeVal row.macd (some 0))
      (padd (pmul (pabs (safeVal row.close none)) (some 0.0005)) (some eps)) with
  | .error u => .error u
  | .ok q => .ok (pclamp01 (psigmoid q))

/-- Oscillator sub-score (app.py lines 88-89):
clamp01(1 - abs(RSI_14 - 50) / 60). -/
noncomputable def rsiScoreE (row : Row) : Except Unit PyFloat :=
  match ndiv (pabs (psub (safeVal row.rsi (some 50)) (some 50))) (some 60) with
  | .error u => .error u
  | .ok q => .ok (pclamp01 (psub (some 1) q))

/-- Volume sub-score (app.py lines 91-92): clamp01(sigmoid(Vol_Ratio)). -/
noncomputable def volScore (row : Row) : PyFloat :=
  pclamp01 (psigmoid (safeVal row.vol (some 1)))

/-- compute_confidence of src/api/app.py: the weighted sub-score sum,
remapped by 0.5 + 0.5 * conf and clamped. -/
noncomputable def computeConfidence (row : Row) : Except Unit PyFloat :=
  match trendScoreE row with
  | .error u => .error u
  | .ok t =>
    match macdScoreE row with
    | .error u => .error u
    | .ok m =>
      match rsiScoreE row with
      | .error u => .error u
      | .ok r =>
        let v := volScore row
        let conf := padd (padd (padd (pmul (some 0.45) t) (pmul (some 0.25) m))
          (pmul (some 0.2) r)) (pmul (some 0.1) v)
        .ok (pclamp01 (padd (some 0.5) (pmul (some 0.5) conf)))

/-- Trend sub-score of commodities.py line 46 (same formula, one-liner). -/
noncomputable def trendScoreCE (row : Row) : Except Unit PyFloat :=
  match safeVal row.close none, safeVal row.ema20 none with
  | some c, some e =>
    match ndiv (some (c - e)) (some (e + eps)) with
    | .error u => .error u
    | .ok rel => .ok (pclamp01 (psigmoid (pmul rel (some 8))))
  | _, _ => .ok (some 0.5)

/-- Momentum sub-score of commodities.py line 47. -/
noncomputable def macdScoreCE (row : Row) : Except Unit PyFloat :=
  match ndiv (safeVal row.macd (some 0))
      (padd (pmul (pabs (safeVal row.close none)) (some 0.0005)) (some eps)) with
  | .error u => .error u
  | .ok q => .ok (pclamp01 (psigmoid q))

/-- Oscillator sub-score of commodities.py line 48. -/
noncomputable def rsiScoreCE (row : Row) : Except Unit PyFloat :=
  match ndiv (pabs (psub (safeVal row.rsi (some 50)) (some 50))) (some 60) with
  | .error u => .error u
  | .ok q => .ok (pclamp01 (psub (some 1) q))

/-- Volume sub-score of commodities.py line 49. -/
noncomputable def volScoreC (row : Row) : PyFloat :=
  pclamp01 (psigmoid (safeVal row.vol (some 1)))

/-- compute_confidence of src/api/commodities.py lines 39-52. -/
noncomputable def computeConfidenceC (row : Row) : Except Unit PyFloat :=
  match trendScoreCE row with
  | .error u => .error u
  | .ok t =>
    match macdScoreCE row with
    | .error u => .error u
    | .ok m =>
      match rsiScoreCE row with
      | .error u => .error u
      | .ok r =>
        let v := volScoreC row
        let conf := padd (padd (padd (pmul (some 0.45) t) (pmul (some 0.25) m))
          (pmul (some 0.2) r)) (pmul (some 0.1) v)
        .ok (pclamp01 (padd (some 0.5) (pmul (some 0.5) conf)))

/-- Lexicographic non-strict comparison on (Ticker, Date), the sort key of
sort_values(["Ticker", "Date"]). -/
def rowLeb (a b : Row) : Bool :=
  decide (a.ticker < b.ticker) || (a.ticker == b.ticker && decide (a.date ≤ b.date))

/-- Stable insertion of a row into an already sorted list: the inserted row
goes before the first existing row it compares less-or-equal to. -/
def insertRow (r : Row) : List Row → List Row
  | [] => [r]
  | s :: l => if rowLeb r s then r :: s :: l else s :: insertRow r l

/-- Stable lexicographic sort by (Ticker, Date), the model of
df.sort_values(["Ticker", "Date"]) (np.lexsort is stable). -/
def sortTable : List Row → List Row
  | [] => []
  | r :: l => insertRow r (sortTable l)

/-- Split a list into maximal consecutive runs of equal ticker; on a
ticker-sorted list these are exactly the groups of groupby("Ticker"). -/
def groupRuns : List Row → List (List Row)
  | [] => []
  | r :: rs =>
    match groupRuns rs with
    | [] => [[r]]
    | [] :: gs => [r] :: [] :: gs
    | (s :: g) :: gs =>
      if r.ticker == s.ticker then (r :: s :: g) :: gs
      else [r] :: (s :: g) :: gs

/-- The last non-null entry of one column within a group, NaN when the whole
column of the group is null: pandas GroupBy.last with its default skipna. -/
def lastNonNull (f : Row → FieldVal) (g : List Row) : FieldVal :=
  match g.reverse.find? (fun r => !(f r).isNull) with
  | some r => f r
  | none => .nan

/-- Placeholder row for impossible empty groups. -/
def dummyRow : Row := ⟨"", 0, .nan, .nan, .nan, .nan, .nan, .nan⟩

/-- The aggregate groupby("Ticker").last().reset_index() row of one group:
the group key plus, per column, its last non-null entry. -/
def aggRow (g : List Row) : Row :=
  match g with
  | [] => dummyRow
  | a :: l =>
    { ticker := a.ticker
      date := ((a :: l).getLastD dummyRow).date
      close := lastNonNull Row.close (a :: l)
      ema20 := lastNonNull Row.ema20 (a :: l)
      macd := lastNonNull Row.macd (a :: l)
      rsi := lastNonNull Row.rsi (a :: l)
      atr := lastNonNull Row.atr (a :: l)
      vol := lastNonNull Row.vol (a :: l) }

/-- The latest-snapshot selector of both engines:
df.sort_values(["Ticker", "Date"]).groupby("Ticker").last().reset_index(). -/
def latestRows (t : List Row) : List Row :=
  (groupRuns (sortTable t)).map aggRow

/-- All indicator cells of the row are non-null. -/
def allPresent (r : Row) : Bool :=
  !r.close.isNull && !r.ema20.isNull && !r.macd.isNull &&
    !r.rsi.isNull && !r.atr.isNull && !r.vol.isNull

/-- One output record (SignalResult). -/
structure SigRow where
  ticker : String
  name : String
  live : PyFloat
  confidence : PyFloat
  signal : Signal
  sl : PyFloat
  tp : PyFloat

/-- dict.get(key, key): association-list lookup with identity fallback. -/
def nmLookup (m : List (String × String)) (k : String) : String :=
  match m.find? (fun p => p.1 == k) with
  | some p => p.2
  | none => k

/-- Effective volatility (app.py line 150, commodities.py line 74):
max(abs(close) * 0.01, eps) if ATR is NaN or zero, else ATR. -/
noncomputable def effAtrVal (close atr : PyFloat) : PyFloat :=
  match atr with
  | none => pymax (pmul (pabs close) (some 0.01)) (some eps)
  | some a =>
    if a = 0 then pymax (pmul (pabs close) (some 0.01)) (some eps) else some a

/-- Risk band conditioned on the decision (app.py lines 152-160,
commodities.py lines 77-79), before rounding: (SL, TP). -/
noncomputable def slTp (close atrVal : PyFloat) : Signal → PyFloat × PyFloat
  | .buy => (psub close (pmul (some 2) atrVal), padd close (pmul (some 3) atrVal))
  | .sell => (padd close (pmul (some 2) atrVal), psub close (pmul (some 3) atrVal))
  | .hold => (psub close atrVal, padd close atrVal)

/-- Per-row result assembly of commodities.py generate_signals (lines 71-89). -/
noncomputable def assembleRowC (nameMap : List (String × String)) (r : Row) :
    Except Unit SigRow :=
  let close := safeVal r.close none
  let atrVal := effAtrVal close (safeVal r.atr none)
  let signal := decideSignalC r
  let band := slTp close atrVal signal
  match computeConfidenceC r with
  | .error u => .error u
  | .ok conf =>
    .ok { ticker := r.ticker
          name := nmLookup nameMap r.ticker
          live := pround2 close
          confidence := pround2 conf
          signal := signal
          sl := pround2 band.1
          tp := pround2 band.2 }

/-- df.dropna(subset=["Ticker", "Close"]): drop rows whose Close cell is
null (Ticker is a non-null string in this model). -/
def dropNullClose (t : List Row) : List Row :=
  t.filter (fun r => !r.close.isNull)

/-- df["Ticker"].astype(str).str.strip().str.upper(). -/
def normTickers (t : List Row) : List Row :=
  t.map (fun r => { r with ticker := r.ticker.trim.toUpper })

/-- generate_signals of src/api/commodities.py (lines 61-90); pd.to_numeric
is the identity on this already numeric model. -/
noncomputable def generateSignalsC (t : List Row)
    (nameMap : List (String × String)) : Except Unit (List SigRow) :=
  (latestRows (normTickers (dropNullClose t))).mapM (assembleRowC nameMap)

/-- TICKER_NAMES of src/api/app.py. -/
def tickerNames : List (String × String) :=
  [("BTC", "Bitcoin"), ("ETH", "Ethereum"), ("USDT", "Tether"),
   ("BNB", "Binance Coin"), ("ADA", "Cardano"), ("SOL", "Solana"),
   ("XRP", "Ripple"), ("DOT", "Polkadot"), ("AVAX", "Avalanche"),
   ("MATIC", "Polygon"), ("ATOM", "Cosmos"), ("DAI", "Dai"),
   ("LTC", "Litecoin"), ("UNI", "Uniswap"), ("ALGO", "Algorand"),
   ("BCH", "Bitcoin Cash"), ("XLM", "Stellar"), ("XMR", "Monero"),
   ("LINK", "Chainlink"), ("SUI", "Sui"), ("TON", "Toncoin"),
   ("TRX", "Tron"), ("USDE", "Ethena USDe"), ("HBAR", "Hedera"),
   ("DOGE", "Dogecoin")]

/-- Per-row result assembly of app.py api_compute_signals (lines 144-171). -/
noncomputable def assembleApp (r : Row) : Except Unit SigRow :=
  let ticker := r.ticker.trim
  let close := safeVal r.close none
  match computeConfidence r with
  | .error u => .error u
  | .ok conf =>
    let signal := decideSignal r
    let atrVal := effAtrVal close (safeVal r.atr none)
    let band := slTp close atrVal signal
    let symbol := ((ticker.splitOn "-").headD ticker).toUpper
    .ok { ticker := ticker
          name := nmLookup tickerNames symbol
          live := pround2 close
          confidence := pround2 conf
          signal := signal
          sl := pround2 band.1
          tp := pround2 band.2 }

/-- The signal-generation core of app.py api_compute_signals (lines 140-171):
latest-snapshot selection followed by per-row assembly. -/
noncomputable def apiComputeSignals (t : List Row) : Except Unit (List SigRow) :=
  (latestRows t).mapM assembleApp

/-! ### Distinguished predicates and concrete inputs used by the claims -/

/-- The computation returned normally with a real confidence inside [0, 1]. -/
def okInUnit (e : Except Unit PyFloat) : Prop :=
  ∃ x, e = .ok (some x) ∧ 0 ≤ x ∧ x ≤ 1

/-- A row whose every field is absent. -/
noncomputable def rowC1 : Row :=
  ⟨"T", 0, .missing, .missing, .missing, .missing, .missing, .missing⟩

/-- A row on which the two classifiers disagree: Close is present holding
the float zero. -/
noncomputable def rowC5 : Row :=
  ⟨"T", 0, .num 0, .num 1, .num (-1), .num 50, .missing, .missing⟩

/-- A row with a present-zero EMA_20 and otherwise ordinary numbers: the
claimed rule chain picks Buy, but the commodities classifier reads the zero
EMA_20 as NaN through safe_val and answers Hold. -/
noncomputable def rowC4 : Row :=
  ⟨"T", 0, .num 2, .num 0, .num 1, .num 50, .missing, .missing⟩

/-- A row whose EMA_20 is exactly -1e-9, the one value the epsilon guard
cannot protect: the trend denominator EMA_20 + eps is the float zero. -/
noncomputable def rowC6 : Row :=
  ⟨"T", 0, .num 1, .num (-eps), .missing, .missing, .missing, .missing⟩

/-- A Buy row with a negative stored ATR. -/
noncomputable def rowC3a : Row :=
  ⟨"T", 1, .num 100, .num 90, .num 1, .num 50, .num (-2), .missing⟩

/-- A Buy row with a tiny positive stored ATR (0.001): the unrounded band is
ordered but collapses under 2-decimal rounding. -/
noncomputable def rowC3b : Row :=
  ⟨"T", 1, .num 100, .num 90, .num 1, .num 50, .num 0.001, .missing⟩

/-- Scenario A of the spec: Close=100, EMA_20=95, MACD=1.5, RSI_14=60,
ATR=2, Vol_Ratio=1.2. -/
noncomputable def rowC7 : Row :=
  ⟨"X", 1, .num 100, .num 95, .num 1.5, .num 60, .num 2, .num 1.2⟩

/-- Two snapshots of one ticker; the later one has a null ATR cell. -/
noncomputable def ceR1 : Row :=
  ⟨"AAA", 1, .num 5, .num 1, .num 1, .num 40, .num 7, .num 1⟩

/-- The chronologically last snapshot of the group, ATR null. -/
noncomputable def ceR2 : Row :=
  ⟨"AAA", 2, .num 6, .num 2, .num 2, .num 50, .nan, .num 1⟩

/-- What the selector actually emits for the group [ceR1, ceR2]: the last
row with ATR back-filled from the earlier row, a row of neither of them. -/
noncomputable def ceMix : Row :=
  ⟨"AAA", 2, .num 6, .num 2, .num 2, .num 50, .num 7, .num 1⟩

/-- A fully populated single row used as witness input for the selector. -/
noncomputable def wRowC2 : Row :=
  ⟨"A", 3, .num 9, .num 8, .num 1, .num 55, .num 2, .num 1⟩

/-! ### Basic facts about the float model -/

theorem clamp01R_nonneg (x : ℝ) : 0 ≤ clamp01R x := by
  unfold clamp01R
  have h0 : (0:ℝ) ≤ max x 0 := le_max_right x 0
  exact le_min h0 zero_le_one

theorem clamp01R_le_one (x : ℝ) : clamp01R x ≤ 1 := min_le_right _ _

theorem clamp01R_eq_self {x : ℝ} (h0 : 0 ≤ x) (h1 : x ≤ 1) : clamp01R x = x := by
  unfold clamp01R
  rw [max_eq_left h0, min_eq_left h1]

theorem clamp01R_ge_half {x : ℝ} (h : 1 / 2 ≤ x) : 1 / 2 ≤ clamp01R x := by
  unfold clamp01R
  have h0 : (1:ℝ) / 2 ≤ max x 0 := le_trans h (le_max_left x 0)
  exact le_min h0 (by norm_num)

theorem pclamp01_some (x : ℝ) : pclamp01 (some x) = some (clamp01R x) := rfl

theorem eps_pos : 0 < eps := by unfold eps; norm_num

theorem sigmoidR_pos (x : ℝ) : 0 < sigmoidR x := by
  unfold sigmoidR
  positivity

theorem one_add_exp_pos (x : ℝ) : 0 < 1 + Real.exp x :=
  add_pos one_pos (Real.exp_pos x)

theorem sigmoidR_lt_one (x : ℝ) : sigmoidR x < 1 := by
  unfold sigmoidR
  rw [div_lt_one (one_add_exp_pos (-x))]
  linarith [Real.exp_pos (-x)]

theorem sigmoidR_mono {x y : ℝ} (h : x ≤ y) : sigmoidR x ≤ sigmoidR y := by
  unfold sigmoidR
  have hx : 0 < 1 + Real.exp (-y) := one_add_exp_pos (-y)
  have he : Real.exp (-y) ≤ Real.exp (-x) := Real.exp_le_exp.mpr (by linarith)
  exact one_div_le_one_div_of_le hx (by linarith)

theorem sigmoidR_le_of_exp_ge {x c : ℝ} (hc : 0 ≤ c) (h : c ≤ Real.exp (-x)) :
    sigmoidR x ≤ 1 / (1 + c) := by
  unfold sigmoidR
  exact one_div_le_one_div_of_le (by linarith) (by linarith)

theorem sigmoidR_ge_of_exp_le {x c : ℝ} (h : Real.exp (-x) ≤ c) :
    1 / (1 + c) ≤ sigmoidR x := by
  unfold sigmoidR
  exact one_div_le_one_div_of_le (one_add_exp_pos (-x)) (by linarith)

/-! ### C4: the decision classifier -/

/-- The crypto classifier (app.py decide_signal) agrees on every row with
the rule chain exactly as the spec words it. -/
theorem decideSignal_eq_classifySpec (row : Row) :
    decideSignal row = classifySpec row := by
  obtain ⟨tk, dt, c, e, m, r, a, v⟩ := row
  cases c <;> cases e <;> cases m <;> cases r <;> rfl

/-- Claim C4 (corrected), counterexample: on Close=2, EMA_20=0, MACD=1,
RSI_14=50 — four present numbers, none missing or NaN — the claimed rule
chain (and the crypto classifier) answers Buy, but the commodities
classifier reads the zero EMA_20 as NaN through safe_val and answers Hold,
so the claimed rule chain is false of the commodities decide_signal. -/
theorem C4_counterexample :
    decideSignalC rowC4 = Signal.hold ∧ classifySpec rowC4 = Signal.buy ∧
    decideSignal rowC4 = Signal.buy := by
  refine ⟨?_, ?_, ?_⟩
  · show decideSignalC rowC4 = Signal.hold
    unfold decideSignalC rowC4
    dsimp only
    rw [show safeVal (FieldVal.num 2) none = some 2 by norm_num [safeVal],
      show safeVal (FieldVal.num 0) none = none by simp [safeVal],
      show safeVal (FieldVal.num 1) none = some 1 by norm_num [safeVal],
      show safeVal (FieldVal.num 50) none = some 50 by norm_num [safeVal]]
  · show classifySpec rowC4 = Signal.buy
    unfold classifySpec rowC4
    dsimp only
    rw [if_pos (by norm_num : (2:ℝ) > 0 ∧ (1:ℝ) > 0 ∧ (50:ℝ) < 70)]
  · show decideSignal rowC4 = Signal.buy
    unfold decideSignal rowC4
    dsimp only [FieldVal.get]
    rw [if_pos (by norm_num : (2:ℝ) > 0 ∧ (1:ℝ) > 0 ∧ (50:ℝ) < 70)]

/-- Claim C4 (amended): both classifiers are pure and total by type (every
row is mapped to one of the three enum members).  The crypto decide_signal
agrees on every row with the rule chain exactly as the spec words it: Hold
when Close, EMA_20, MACD or RSI_14 is missing/NaN; else Buy when
Close > EMA_20, MACD > 0 and RSI_14 < 70; else Sell when Close < EMA_20,
MACD < 0 and RSI_14 > 30; else Hold.  The commodities decide_signal follows
the same rule chain on every row in which none of Close, EMA_20, RSI_14 is
present holding the float zero (a present-zero MACD also obeys it, since
both the NaN route and the comparisons land on Hold); on a present-zero
Close, EMA_20 or RSI_14 it substitutes NaN and answers Hold where the rule
chain can demand Buy or Sell. -/
theorem C4_classifiers_rule (row : Row) :
    decideSignal row = classifySpec row ∧
    (row.close ≠ .num 0 → row.ema20 ≠ .num 0 → row.rsi ≠ .num 0 →
      decideSignalC row = classifySpec row) := by
  refine ⟨decideSignal_eq_classifySpec row, ?_⟩
  intro hc he hr
  obtain ⟨tk, dt, c, e, m, r, a, v⟩ := row
  simp only [ne_eq] at hc he hr
  unfold decideSignalC classifySpec
  cases c with
  | missing => rfl
  | nan => rfl
  | num x =>
    have hx : ¬x = 0 := fun h => hc (by rw [h])
    cases e with
    | missing => cases m <;> cases r <;> simp [safeVal, hx]
    | nan => cases m <;> cases r <;> simp [safeVal, hx]
    | num y =>
      have hy : ¬y = 0 := fun h => he (by rw [h])
      cases r with
      | missing => cases m <;> simp [safeVal, hx, hy]
      | nan => cases m <;> simp [safeVal, hx, hy]
      | num z =>
        have hz : ¬z = 0 := fun h => hr (by rw [h])
        cases m with
        | missing => simp [safeVal, hx, hy, hz]
        | nan => simp [safeVal, hx, hy, hz]
        | num w =>
          by_cases hw : w = 0
          · subst hw
            simp [safeVal, hx, hy, hz, lt_irrefl]
          · simp [safeVal, hx, hy, hz, hw]

/-- Witness for C4 at a concrete row with no zero-valued cells. -/
theorem C4_classifiers_rule_witness :
    decideSignal ⟨"T", 0, .num 3, .num 2, .num 1, .num 50, .missing, .missing⟩ =
      classifySpec ⟨"T", 0, .num 3, .num 2, .num 1, .num 50, .missing, .missing⟩ ∧
    decideSignalC ⟨"T", 0, .num 3, .num 2, .num 1, .num 50, .missing, .missing⟩ =
      classifySpec ⟨"T", 0, .num 3, .num 2, .num 1, .num 50, .missing, .missing⟩ := by
  have h := C4_classifiers_rule ⟨"T", 0, .num 3, .num 2, .num 1, .num 50, .missing, .missing⟩
  exact ⟨h.1, h.2 (by simp) (by simp) (by simp)⟩

/-! ### C10: safe_val and present-but-zero fields -/

/-- Claim C10 (confirmed): safe_val resolves a present-but-zero cell exactly
like a missing one (both give the default), while a present NaN passes
through as NaN instead of the default.  Concretely, a zero RSI_14 is scored
with the default 50, a zero Vol_Ratio becomes 1.0, a zero MACD stays 0.0, a
zero Close or EMA_20 becomes NaN, which forces trend score 0.5 and, in the
commodities classifier, Signal = Hold. -/
theorem C10_safe_val_zero (row : Row) :
    (∀ d : PyFloat, safeVal (.num 0) d = d) ∧
    (∀ d : PyFloat, safeVal .missing d = d) ∧
    (∀ d : PyFloat, safeVal .nan d = none) ∧
    safeVal (.num 0) (some 50) = some 50 ∧
    safeVal (.num 0) (some 1) = some 1 ∧
    safeVal (.num 0) (some 0) = some 0 ∧
    safeVal (.num 0) none = none ∧
    (row.close = .num 0 → trendScoreE row = .ok (some 0.5)) ∧
    (row.ema20 = .num 0 → trendScoreE row = .ok (some 0.5)) ∧
    (row.close = .num 0 → decideSignalC row = .hold) := by
  have hz : ∀ d : PyFloat, safeVal (.num 0) d = d := by
    intro d; simp [safeVal]
  refine ⟨hz, fun d => rfl, fun d => rfl, hz _, hz _, hz _, hz _, ?_, ?_, ?_⟩
  · intro hc
    unfold trendScoreE
    rw [hc, hz none]
  · intro he
    unfold trendScoreE
    rw [he, hz none]
    cases safeVal row.close none <;> rfl
  · intro hc
    unfold decideSignalC
    rw [hc, hz none]

/-- Witness for C10 at concrete inputs. -/
theorem C10_safe_val_zero_witness :
    safeVal (.num 0) (some 50) = some 50 ∧
    trendScoreE ⟨"T", 0, .num 0, .missing, .missing, .missing, .missing, .missing⟩ =
      .ok (some 0.5) ∧
    decideSignalC ⟨"T", 0, .num 0, .num 1, .num 1, .num 50, .missing, .missing⟩ =
      .hold := by
  refine ⟨(C10_safe_val_zero dummyRow).2.2.2.1, ?_, ?_⟩
  · exact (C10_safe_val_zero ⟨"T", 0, .num 0, .missing, .missing, .missing,
      .missing, .missing⟩).2.2.2.2.2.2.2.1 rfl
  · exact (C10_safe_val_zero ⟨"T", 0, .num 0, .num 1, .num 1, .num 50,
      .missing, .missing⟩).2.2.2.2.2.2.2.2.2 rfl

/-! ### C5: the two engines -/

/-- Claim C5 (corrected), counterexample: on Close=0, EMA_20=1, MACD=-1,
RSI_14=50 the crypto classifier reads the zero Close and answers Sell, while
the commodities classifier turns the zero Close into NaN via safe_val and
answers Hold, so the two engines do not implement the same function. -/
theorem C5_counterexample :
    decideSignal rowC5 = Signal.sell ∧ decideSignalC rowC5 = Signal.hold := by
  constructor
  · show (if (0:ℝ) > 1 ∧ (-1:ℝ) > 0 ∧ (50:ℝ) < 70 then Signal.buy
      else if (0:ℝ) < 1 ∧ (-1:ℝ) < 0 ∧ (50:ℝ) > 30 then Signal.sell
      else Signal.hold) = Signal.sell
    rw [if_neg (by norm_num), if_pos (by norm_num)]
  · show decideSignalC rowC5 = Signal.hold
    unfold decideSignalC rowC5
    simp [safeVal]

/-- Claim C5 (amended): the two compute_confidence functions agree on every
row, and the two decide_signal functions agree on every row in which none of
Close, EMA_20, RSI_14 is present holding the float zero (a zero MACD is read
as 0 by the crypto classifier and as NaN by the commodities one, but both
answer Hold there). -/
theorem C5_engines_agree (row : Row) :
    computeConfidence row = computeConfidenceC row ∧
    (row.close ≠ .num 0 → row.ema20 ≠ .num 0 → row.rsi ≠ .num 0 →
      decideSignal row = decideSignalC row) := by
  constructor
  · rfl
  · intro hc he hr
    obtain ⟨tk, dt, c, e, m, r, a, v⟩ := row
    simp only [ne_eq] at hc he hr
    unfold decideSignal decideSignalC
    cases c with
    | missing => rfl
    | nan => rfl
    | num x =>
      have hx : ¬x = 0 := fun h => hc (by rw [h])
      cases e with
      | missing => cases m <;> cases r <;> simp [FieldVal.get, safeVal, hx]
      | nan => cases m <;> cases r <;> simp [FieldVal.get, safeVal, hx]
      | num y =>
        have hy : ¬y = 0 := fun h => he (by rw [h])
        cases r with
        | missing => cases m <;> simp [FieldVal.get, safeVal, hx, hy]
        | nan => cases m <;> simp [FieldVal.get, safeVal, hx, hy]
        | num z =>
          have hz : ¬z = 0 := fun h => hr (by rw [h])
          cases m with
          | missing => simp [FieldVal.get, safeVal, hx, hy, hz]
          | nan => simp [FieldVal.get, safeVal, hx, hy, hz]
          | num w =>
            by_cases hw : w = 0
            · subst hw
              simp [FieldVal.get, safeVal, hx, hy, hz, lt_irrefl]
            · simp [FieldVal.get, safeVal, hx, hy, hz, hw]

/-- Witness for C5 at a concrete row with no zero-valued cells. -/
theorem C5_engines_agree_witness :
    computeConfidence ⟨"T", 0, .num 2, .num 1, .num 1, .num 50, .missing, .missing⟩ =
      computeConfidenceC ⟨"T", 0, .num 2, .num 1, .num 1, .num 50, .missing, .missing⟩ ∧
    decideSignal ⟨"T", 0, .num 2, .num 1, .num 1, .num 50, .missing, .missing⟩ =
      decideSignalC ⟨"T", 0, .num 2, .num 1, .num 1, .num 50, .missing, .missing⟩ := by
  have h := C5_engines_agree ⟨"T", 0, .num 2, .num 1, .num 1, .num 50, .missing, .missing⟩
  exact ⟨h.1, h.2 (by simp) (by simp) (by simp)⟩

/-! ### Sub-score lemmas shared by the confidence claims -/

theorem ndiv_ss {x d : ℝ} (hd : d ≠ 0) :
    ndiv (some x) (some d) = .ok (some (x / d)) := by
  show (if d = 0 then Except.error () else
    match some x with
    | some x => Except.ok (some (x / d))
    | none => Except.ok none) = _
  rw [if_neg hd]

theorem ndiv_ns {d : ℝ} (hd : d ≠ 0) : ndiv none (some d) = .ok none := by
  show (if d = 0 then Except.error () else
    match (none : PyFloat) with
    | some x => Except.ok (some (x / d))
    | none => Except.ok none) = _
  rw [if_neg hd]

theorem ndiv_zero (a : PyFloat) : ndiv a (some 0) = .error () := by
  show (if (0:ℝ) = 0 then Except.error () else
    match a with
    | some x => Except.ok (some (x / 0))
    | none => Except.ok none) = _
  rw [if_pos rfl]

theorem safeVal_some_default {f : FieldVal} (d : ℝ) (h : f ≠ .nan) :
    ∃ v, safeVal f (some d) = some v := by
  cases f with
  | missing => exact ⟨d, rfl⟩
  | nan => exact absurd rfl h
  | num r =>
    by_cases hr : r = 0
    · exact ⟨d, by simp [safeVal, hr]⟩
    · exact ⟨r, by simp [safeVal, hr]⟩

theorem pclamp01_eq_some {p : PyFloat} {x : ℝ} (h : pclamp01 p = some x) :
    0 ≤ x ∧ x ≤ 1 := by
  cases p with
  | none => simp [pclamp01] at h
  | some y =>
    rw [pclamp01_some] at h
    obtain rfl : clamp01R y = x := Option.some_injective _ h
    exact ⟨clamp01R_nonneg y, clamp01R_le_one y⟩

theorem trendScoreE_ok (row : Row) (he : safeVal row.ema20 none ≠ some (-eps)) :
    ∃ t, trendScoreE row = .ok (some t) ∧ 0 ≤ t ∧ t ≤ 1 := by
  unfold trendScoreE
  cases hcv : safeVal row.close none with
  | none =>
    cases hev : safeVal row.ema20 none with
    | none => exact ⟨0.5, rfl, by norm_num, by norm_num⟩
    | some e => exact ⟨0.5, rfl, by norm_num, by norm_num⟩
  | some c =>
    cases hev : safeVal row.ema20 none with
    | none => exact ⟨0.5, rfl, by norm_num, by norm_num⟩
    | some e =>
      have hne : e + eps ≠ 0 := by
        intro h0
        apply he
        rw [hev]
        have hee : e = -eps := by linarith
        rw [hee]
      dsimp only
      rw [ndiv_ss hne]
      exact ⟨clamp01R (sigmoidR ((c - e) / (e + eps) * 8)), rfl,
        clamp01R_nonneg _, clamp01R_le_one _⟩

theorem macd_denom_ne {c : ℝ} : |c| * 0.0005 + eps ≠ 0 := by
  have h1 : (0:ℝ) ≤ |c| * 0.0005 := by positivity
  have h2 := eps_pos
  exact ne_of_gt (by linarith)

theorem macdScoreE_ok (row : Row) (c : ℝ) (hcv : safeVal row.close none = some c)
    (hm : row.macd ≠ .nan) :
    ∃ m, macdScoreE row = .ok (some m) ∧ 0 ≤ m ∧ m ≤ 1 := by
  obtain ⟨mv, hmv⟩ := safeVal_some_default 0 hm
  unfold macdScoreE
  rw [hmv, hcv]
  dsimp only [pabs, pmul, padd]
  rw [ndiv_ss macd_denom_ne]
  exact ⟨clamp01R (sigmoidR (mv / (|c| * 0.0005 + eps))), rfl,
    clamp01R_nonneg _, clamp01R_le_one _⟩

theorem macdScoreE_no_error (row : Row) : ∃ p, macdScoreE row = .ok p := by
  unfold macdScoreE
  cases hcv : safeVal row.close none with
  | none =>
    cases hmv : safeVal row.macd (some 0) <;> exact ⟨none, rfl⟩
  | some c =>
    cases hmv : safeVal row.macd (some 0) with
    | none =>
      dsimp only [pabs, pmul, padd]
      rw [ndiv_ns macd_denom_ne]
      exact ⟨none, rfl⟩
    | some mv =>
      dsimp only [pabs, pmul, padd]
      rw [ndiv_ss macd_denom_ne]
      exact ⟨_, rfl⟩

theorem rsiScoreE_ok (row : Row) (hr : row.rsi ≠ .nan) :
    ∃ r, rsiScoreE row = .ok (some r) ∧ 0 ≤ r ∧ r ≤ 1 := by
  obtain ⟨rv, hrv⟩ := safeVal_some_default 50 hr
  unfold rsiScoreE
  rw [hrv]
  dsimp only [psub, pabs]
  rw [ndiv_ss (by norm_num : (60:ℝ) ≠ 0)]
  exact ⟨clamp01R (1 - |rv - 50| / 60), rfl, clamp01R_nonneg _, clamp01R_le_one _⟩

theorem rsiScoreE_no_error (row : Row) : ∃ p, rsiScoreE row = .ok p := by
  unfold rsiScoreE
  cases hrv : safeVal row.rsi (some 50) with
  | none =>
    dsimp only [psub, pabs]
    rw [ndiv_ns (by norm_num : (60:ℝ) ≠ 0)]
    exact ⟨none, rfl⟩
  | some rv =>
    dsimp only [psub, pabs]
    rw [ndiv_ss (by norm_num : (60:ℝ) ≠ 0)]
    exact ⟨_, rfl⟩

theorem volScore_ok (row : Row) (hv : row.vol ≠ .nan) :
    ∃ v, volScore row = some v ∧ 0 ≤ v ∧ v ≤ 1 := by
  obtain ⟨w, hw⟩ := safeVal_some_default 1 hv
  unfold volScore
  rw [hw]
  exact ⟨clamp01R (sigmoidR w), rfl, clamp01R_nonneg _, clamp01R_le_one _⟩

theorem trendScoreE_bound {row : Row} {t : ℝ}
    (h : trendScoreE row = .ok (some t)) : 0 ≤ t ∧ t ≤ 1 := by
  unfold trendScoreE at h
  cases hcv : safeVal row.close none with
  | none =>
    rw [hcv] at h
    cases hev : safeVal row.ema20 none <;> rw [hev] at h <;>
      obtain rfl : (0.5:ℝ) = t := by simpa using h
    all_goals norm_num
  | some c =>
    cases hev : safeVal row.ema20 none with
    | none =>
      rw [hcv, hev] at h
      obtain rfl : (0.5:ℝ) = t := by simpa using h
      norm_num
    | some e =>
      rw [hcv, hev] at h
      dsimp only at h
      cases hd : ndiv (some (c - e)) (some (e + eps)) with
      | error u => rw [hd] at h; simp at h
      | ok rel =>
        rw [hd] at h
        dsimp only at h
        exact pclamp01_eq_some (by simpa using h)

theorem macdScoreE_bound {row : Row} {m : ℝ}
    (h : macdScoreE row = .ok (some m)) : 0 ≤ m ∧ m ≤ 1 := by
  unfold macdScoreE at h
  cases hd : ndiv (safeVal row.macd (some 0))
      (padd (pmul (pabs (safeVal row.close none)) (some 0.0005)) (some eps)) with
  | error u => rw [hd] at h; simp at h
  | ok q =>
    rw [hd] at h
    dsimp only at h
    exact pclamp01_eq_some (by simpa using h)

theorem rsiScoreE_bound {row : Row} {r : ℝ}
    (h : rsiScoreE row = .ok (some r)) : 0 ≤ r ∧ r ≤ 1 := by
  unfold rsiScoreE at h
  cases hd : ndiv (pabs (psub (safeVal row.rsi (some 50)) (some 50))) (some 60) with
  | error u => rw [hd] at h; simp at h
  | ok q =>
    rw [hd] at h
    dsimp only at h
    exact pclamp01_eq_some (by simpa using h)

theorem volScore_bound {row : Row} {v : ℝ}
    (h : volScore row = some v) : 0 ≤ v ∧ v ≤ 1 := by
  unfold volScore at h
  exact pclamp01_eq_some h

/-! ### C1: confidence range -/

/-- Claim C1 (corrected), counterexample: on a row with every field absent
the MACD denominator abs(Close) * 0.0005 + eps is NaN, so the momentum
quotient, the momentum score and with it the returned confidence are all
NaN — the function returns normally but not with a value in [0, 1]. -/
theorem C1_counterexample : ¬ okInUnit (computeConfidence rowC1) := by
  have ht : trendScoreE rowC1 = .ok (some 0.5) := rfl
  have hm : macdScoreE rowC1 = .ok none := rfl
  obtain ⟨r, hr, _, _⟩ := rsiScoreE_ok rowC1 (by simp [rowC1])
  have h : computeConfidence rowC1 = .ok none := by
    unfold computeConfidence
    rw [ht, hm, hr]
    rfl
  intro hu
  obtain ⟨x, hx, _, _⟩ := hu
  rw [h] at hx
  simp at hx

/-- Claim C1 (amended): the returned confidence is a real number in [0, 1]
whenever Close is present with a nonzero value, none of MACD, RSI_14,
Vol_Ratio is present holding NaN, and EMA_20 does not resolve to exactly
-1e-9 (otherwise the result is NaN, or a ZeroDivisionError escapes). -/
theorem C1_confidence_in_unit (row : Row) (c : ℝ) (hc : row.close = .num c)
    (hc0 : c ≠ 0) (hm : row.macd ≠ .nan) (hr : row.rsi ≠ .nan)
    (hv : row.vol ≠ .nan) (he : safeVal row.ema20 none ≠ some (-eps)) :
    okInUnit (computeConfidence row) := by
  have hclose : safeVal row.close none = some c := by
    rw [hc]
    simp [safeVal, hc0]
  obtain ⟨t, ht, ht0, ht1⟩ := trendScoreE_ok row he
  obtain ⟨m, hmk, hm0, hm1⟩ := macdScoreE_ok row c hclose hm
  obtain ⟨r, hrk, hr0, hr1⟩ := rsiScoreE_ok row hr
  obtain ⟨v, hvk, hv0, hv1⟩ := volScore_ok row hv
  unfold computeConfidence
  rw [ht, hmk, hrk]
  dsimp only
  rw [hvk]
  dsimp only [pmul, padd, pclamp01]
  exact ⟨clamp01R (0.5 + 0.5 * (0.45 * t + (0.25 * m) + 0.2 * r + 0.1 * v)), rfl,
    clamp01R_nonneg _, clamp01R_le_one _⟩

/-- Witness for C1 at a concrete row. -/
theorem C1_confidence_in_unit_witness :
    okInUnit (computeConfidence
      ⟨"T", 0, .num 1, .missing, .missing, .missing, .missing, .missing⟩) :=
  C1_confidence_in_unit _ 1 rfl one_ne_zero (by simp) (by simp) (by simp)
    (by simp [safeVal])

/-! ### C6: division safety -/

/-- Claim C6 (corrected), counterexample: on Close=1, EMA_20=-1e-9 the trend
denominator EMA_20 + eps is exactly zero and compute_confidence raises
ZeroDivisionError — the epsilon guard does not cover this input, so an
arithmetic exception is observable from the public contract. -/
theorem C6_counterexample : computeConfidence rowC6 = .error () := by
  have ht : trendScoreE rowC6 = .error () := by
    unfold trendScoreE rowC6
    have h1 : safeVal (FieldVal.num 1) none = some 1 := by
      simp [safeVal]
    have h2 : safeVal (FieldVal.num (-eps)) none = some (-eps) := by
      simp [safeVal, ne_of_lt (neg_neg_of_pos eps_pos)]
    rw [h1, h2]
    dsimp only
    have hz : -eps + eps = 0 := by ring
    rw [hz, ndiv_zero]
  unfold computeConfidence
  rw [ht]

/-- Claim C6 (amended): the MACD and RSI denominators are never the float
zero (the first is positive or NaN, the second the constant 60), so no
division by zero occurs on any row unless EMA_20 resolves to exactly -1e-9;
away from that single value both compute_confidence functions return
normally. -/
theorem C6_division_guarded (row : Row)
    (he : safeVal row.ema20 none ≠ some (-eps)) :
    (∃ v, computeConfidence row = .ok v) ∧
    ∃ v, computeConfidenceC row = .ok v := by
  obtain ⟨t, ht, _, _⟩ := trendScoreE_ok row he
  obtain ⟨pm, hm⟩ := macdScoreE_no_error row
  obtain ⟨pr, hr⟩ := rsiScoreE_no_error row
  constructor
  · exact ⟨_, by unfold computeConfidence; rw [ht, hm, hr]⟩
  · have hCC : computeConfidenceC row = computeConfidence row := rfl
    exact ⟨_, by rw [hCC]; unfold computeConfidence; rw [ht, hm, hr]⟩

/-- Witness for C6 at a concrete row. -/
theorem C6_division_guarded_witness :
    (∃ v, computeConfidence
      ⟨"W", 0, .missing, .missing, .missing, .missing, .missing, .missing⟩ = .ok v) ∧
    ∃ v, computeConfidenceC
      ⟨"W", 0, .missing, .missing, .missing, .missing, .missing, .missing⟩ = .ok v :=
  C6_division_guarded _ (by simp [safeVal])

/-! ### C8: the 0.5 confidence floor -/

/-- Claim C8 (confirmed): whenever the four sub-scores are well defined
(real, not NaN), each is nonnegative by construction of the clamped
formulas, and the returned confidence 0.5 + 0.5 * weighted_sum, clamped,
never falls below 0.5. -/
theorem C8_confidence_floor (row : Row) (t m r v : ℝ)
    (ht : trendScoreE row = .ok (some t)) (hm : macdScoreE row = .ok (some m))
    (hr : rsiScoreE row = .ok (some r)) (hv : volScore row = some v) :
    (0 ≤ t ∧ 0 ≤ m ∧ 0 ≤ r ∧ 0 ≤ v) ∧
    ∃ x, computeConfidence row = .ok (some x) ∧ 1 / 2 ≤ x ∧ x ≤ 1 := by
  have hT := trendScoreE_bound ht
  have hM := macdScoreE_bound hm
  have hR := rsiScoreE_bound hr
  have hV := volScore_bound hv
  refine ⟨⟨hT.1, hM.1, hR.1, hV.1⟩, ?_⟩
  unfold computeConfidence
  rw [ht, hm, hr]
  dsimp only
  rw [hv]
  dsimp only [pmul, padd, pclamp01]
  refine ⟨clamp01R (0.5 + 0.5 * (0.45 * t + (0.25 * m) + 0.2 * r + 0.1 * v)), rfl,
    ?_, clamp01R_le_one _⟩
  apply clamp01R_ge_half
  nlinarith [hT.1, hM.1, hR.1, hV.1]

/-- Witness for C8 at a concrete row. -/
theorem C8_confidence_floor_witness :
    (0 ≤ (0.5:ℝ) ∧ 0 ≤ (1/2:ℝ) ∧ 0 ≤ (1:ℝ) ∧ 0 ≤ clamp01R (sigmoidR 1)) ∧
    ∃ x, computeConfidence
      ⟨"T", 0, .num 1, .missing, .missing, .missing, .missing, .missing⟩ =
        .ok (some x) ∧ 1 / 2 ≤ x ∧ x ≤ 1 := by
  refine C8_confidence_floor _ 0.5 (1/2) 1 (clamp01R (sigmoidR 1)) ?_ ?_ ?_ rfl
  · unfold trendScoreE
    simp [safeVal]
  · unfold macdScoreE
    have h1 : safeVal (FieldVal.num 1) none = some 1 := by simp [safeVal]
    show (match ndiv (safeVal .missing (some 0))
        (padd (pmul (pabs (safeVal (FieldVal.num 1) none)) (some 0.0005)) (some eps)) with
      | .error u => Except.error u
      | .ok q => .ok (pclamp01 (psigmoid q))) = .ok (some (1/2))
    rw [h1]
    show (match ndiv (some 0) (some (|(1:ℝ)| * 0.0005 + eps)) with
      | .error u => Except.error u
      | .ok q => .ok (pclamp01 (psigmoid q))) = .ok (some (1/2))
    rw [ndiv_ss macd_denom_ne]
    dsimp only [psigmoid, pclamp01]
    have hq : (0:ℝ) / (|(1:ℝ)| * 0.0005 + eps) = 0 := zero_div _
    rw [hq]
    have hs : sigmoidR 0 = 1/2 := by
      unfold sigmoidR
      rw [neg_zero, Real.exp_zero]
      norm_num
    rw [hs, clamp01R_eq_self (by norm_num) (by norm_num)]
  · unfold rsiScoreE
    show (match ndiv (pabs (psub (safeVal .missing (some 50)) (some 50))) (some 60) with
      | .error u => Except.error u
      | .ok q => .ok (pclamp01 (psub (some 1) q))) = .ok (some 1)
    show (match ndiv (some |(50:ℝ) - 50|) (some 60) with
      | .error u => Except.error u
      | .ok q => .ok (pclamp01 (psub (some 1) q))) = .ok (some 1)
    rw [ndiv_ss (by norm_num : (60:ℝ) ≠ 0)]
    dsimp only [psub, pclamp01]
    have hq : (1:ℝ) - |(50:ℝ) - 50| / 60 = 1 := by norm_num
    rw [hq, clamp01R_eq_self (by norm_num) (by norm_num)]

/-! ### Evaluation helpers -/

theorem safeVal_num_ne {r : ℝ} (d : PyFloat) (h : r ≠ 0) :
    safeVal (.num r) d = some r := by
  simp [safeVal, h]

theorem effAtrVal_some_ne (c : PyFloat) {a : ℝ} (h : a ≠ 0) :
    effAtrVal c (some a) = some a := by
  simp [effAtrVal, h]

theorem round_eval {x : ℝ} {n : ℤ} (h1 : (n:ℝ) ≤ x + 1/2) (h2 : x + 1/2 < n + 1) :
    round x = n := by
  rw [round_eq]
  exact Int.floor_eq_iff.mpr ⟨h1, by linarith⟩

theorem pround2_eval (n : ℤ) {x y : ℝ} (h1 : round (x * 100) = n)
    (h2 : (n:ℝ) / 100 = y) : pround2 (some x) = some y := by
  show some ((round (x * 100) : ℤ) / 100 : ℝ) = some y
  rw [h1, h2]

theorem computeConfidenceC_ok (row : Row)
    (he : safeVal row.ema20 none ≠ some (-eps)) :
    ∃ v, computeConfidenceC row = .ok v := by
  obtain ⟨t, ht, _, _⟩ := trendScoreE_ok row he
  obtain ⟨pm, hm⟩ := macdScoreE_no_error row
  obtain ⟨pr, hr⟩ := rsiScoreE_no_error row
  have hCC : computeConfidenceC row = computeConfidence row := rfl
  exact ⟨_, by rw [hCC]; unfold computeConfidence; rw [ht, hm, hr]⟩

/-! ### C9: determinism -/

/-- Claim C9 (confirmed): both signal-generation pipelines are pure
functions of the snapshot table and the name map, so two runs on equal
inputs produce identical result tables (same rows, same values, same
order).  In this side-effect-free embedding that is purity itself; the
sources read no clock, randomness or mutable state between runs. -/
theorem C9_idempotent (t t2 : List Row) (m m2 : List (String × String))
    (htab : t = t2) (hmap : m = m2) :
    generateSignalsC t m = generateSignalsC t2 m2 ∧
    apiComputeSignals t = apiComputeSignals t2 := by
  subst htab
  subst hmap
  exact ⟨rfl, rfl⟩

/-- Witness for C9 on a concrete table. -/
theorem C9_idempotent_witness :
    generateSignalsC [rowC7] [] = generateSignalsC [rowC7] [] ∧
    apiComputeSignals [rowC7] = apiComputeSignals [rowC7] :=
  C9_idempotent [rowC7] [rowC7] [] [] rfl rfl

/-! ### C3: risk-band ordering -/

/-- Claim C3 (amended): writing c for the resolved Close and a for the
effective atr_val of a selected row, whenever a > 0 the unrounded band of
the engine satisfies the orderings: Buy gives tp > c > sl, Sell gives
sl > c > tp, Hold gives tp > c > sl with band width 2a, narrower than the
Buy band width 5a.  (On the emitted 2-decimal-rounded fields these strict
inequalities can collapse to equalities, and a present negative ATR
reverses them — see the counterexample.) -/
theorem C3_band_ordering (row : Row) (c a : ℝ)
    (hc : safeVal row.close none = some c)
    (ha : effAtrVal (safeVal row.close none) (safeVal row.atr none) = some a)
    (hpos : 0 < a) :
    ∃ sl tp : ℝ,
      slTp (safeVal row.close none)
          (effAtrVal (safeVal row.close none) (safeVal row.atr none))
          (decideSignalC row) = (some sl, some tp) ∧
      (decideSignalC row = .buy → tp > c ∧ c > sl) ∧
      (decideSignalC row = .sell → sl > c ∧ c > tp) ∧
      (decideSignalC row = .hold → tp > c ∧ c > sl ∧ tp - sl < 5 * a) := by
  rw [ha, hc]
  cases hs : decideSignalC row with
  | buy =>
    refine ⟨c - 2 * a, c + 3 * a, rfl, fun _ => ⟨by linarith, by linarith⟩,
      ?_, ?_⟩ <;> intro h <;> simp at h
  | sell =>
    refine ⟨c + 2 * a, c - 3 * a, rfl, ?_,
      fun _ => ⟨by linarith, by linarith⟩, ?_⟩ <;> intro h <;> simp at h
  | hold =>
    refine ⟨c - a, c + a, rfl, ?_, ?_,
      fun _ => ⟨by linarith, by linarith, by linarith⟩⟩ <;> intro h <;> simp at h

/-- Witness for C3 at a concrete Buy row. -/
theorem C3_band_ordering_witness :
    ∃ sl tp : ℝ,
      slTp (safeVal (Row.close ⟨"T", 1, .num 100, .num 90, .num 1, .num 50, .num 2, .missing⟩) none)
          (effAtrVal
            (safeVal (Row.close ⟨"T", 1, .num 100, .num 90, .num 1, .num 50, .num 2, .missing⟩) none)
            (safeVal (Row.atr ⟨"T", 1, .num 100, .num 90, .num 1, .num 50, .num 2, .missing⟩) none))
          (decideSignalC ⟨"T", 1, .num 100, .num 90, .num 1, .num 50, .num 2, .missing⟩) =
        (some sl, some tp) ∧
      (decideSignalC ⟨"T", 1, .num 100, .num 90, .num 1, .num 50, .num 2, .missing⟩ = .buy →
        tp > 100 ∧ 100 > sl) ∧
      (decideSignalC ⟨"T", 1, .num 100, .num 90, .num 1, .num 50, .num 2, .missing⟩ = .sell →
        sl > 100 ∧ 100 > tp) ∧
      (decideSignalC ⟨"T", 1, .num 100, .num 90, .num 1, .num 50, .num 2, .missing⟩ = .hold →
        tp > 100 ∧ 100 > sl ∧ tp - sl < 5 * 2) :=
  C3_band_ordering ⟨"T", 1, .num 100, .num 90, .num 1, .num 50, .num 2, .missing⟩ 100 2
    (safeVal_num_ne none (by norm_num))
    (by rw [safeVal_num_ne none (by norm_num : (2:ℝ) ≠ 0)]
        exact effAtrVal_some_ne _ (by norm_num))
    (by norm_num)

theorem assembleRowC_eval (nm : List (String × String)) (tk : String) (dt : Int)
    {c e m r a : ℝ} (vfld : FieldVal) (hc : c ≠ 0) (ha : a ≠ 0) (cf : PyFloat)
    (hcf : computeConfidenceC ⟨tk, dt, .num c, .num e, .num m, .num r, .num a, vfld⟩ = .ok cf)
    (sig : Signal)
    (hsig : decideSignalC ⟨tk, dt, .num c, .num e, .num m, .num r, .num a, vfld⟩ = sig) :
    assembleRowC nm ⟨tk, dt, .num c, .num e, .num m, .num r, .num a, vfld⟩ =
      .ok ⟨tk, nmLookup nm tk, pround2 (some c), pround2 cf, sig,
        pround2 (slTp (some c) (some a) sig).1,
        pround2 (slTp (some c) (some a) sig).2⟩ := by
  unfold assembleRowC
  rw [hcf]
  dsimp only
  rw [safeVal_num_ne none hc, safeVal_num_ne none ha, effAtrVal_some_ne _ ha, hsig]

/-- Claim C3 (corrected), counterexample: two one-row snapshot tables on
which the emitted SignalResult has Signal = Buy yet TakeProfit > LivePrice
fails on the 2-decimal-rounded output fields.  With ATR = -2 the band is
reversed (SL = 104, TP = 94 < LivePrice = 100); with ATR = 0.001 the whole
band rounds onto the live price (SL = TP = LivePrice = 100.00). -/
theorem C3_counterexample :
    (generateSignalsC [rowC3a] []).map (List.map fun s => (s.signal, s.live, s.sl, s.tp)) =
      .ok [(Signal.buy, some (100:ℝ), some (104:ℝ), some (94:ℝ))] ∧
    (generateSignalsC [rowC3b] []).map (List.map fun s => (s.signal, s.live, s.sl, s.tp)) =
      .ok [(Signal.buy, some (100:ℝ), some (100:ℝ), some (100:ℝ))] ∧
    ¬((94:ℝ) > 100) ∧ ¬((100:ℝ) > 100) := by
  have hsigA : decideSignalC
      ⟨"T".trim.toUpper, 1, .num 100, .num 90, .num 1, .num 50, .num (-2), .nan⟩ =
      .buy := by
    unfold decideSignalC
    dsimp only
    rw [safeVal_num_ne none (by norm_num : (100:ℝ) ≠ 0),
      safeVal_num_ne none (by norm_num : (90:ℝ) ≠ 0),
      safeVal_num_ne none (by norm_num : (1:ℝ) ≠ 0),
      safeVal_num_ne none (by norm_num : (50:ℝ) ≠ 0)]
    dsimp only
    rw [if_pos (by norm_num : (100:ℝ) > 90 ∧ (1:ℝ) > 0 ∧ (50:ℝ) < 70)]
  have hsigB : decideSignalC
      ⟨"T".trim.toUpper, 1, .num 100, .num 90, .num 1, .num 50, .num 0.001, .nan⟩ =
      .buy := by
    unfold decideSignalC
    dsimp only
    rw [safeVal_num_ne none (by norm_num : (100:ℝ) ≠ 0),
      safeVal_num_ne none (by norm_num : (90:ℝ) ≠ 0),
      safeVal_num_ne none (by norm_num : (1:ℝ) ≠ 0),
      safeVal_num_ne none (by norm_num : (50:ℝ) ≠ 0)]
    dsimp only
    rw [if_pos (by norm_num : (100:ℝ) > 90 ∧ (1:ℝ) > 0 ∧ (50:ℝ) < 70)]
  have hema : ∀ dt : Int, ∀ f1 f2 : FieldVal,
      safeVal (Row.ema20 ⟨"T".trim.toUpper, dt, .num 100, .num 90, .num 1, .num 50, f1, f2⟩) none ≠
        some (-eps) := by
    intro dt f1 f2
    show safeVal (FieldVal.num 90) none ≠ some (-eps)
    rw [safeVal_num_ne none (by norm_num : (90:ℝ) ≠ 0)]
    simp only [ne_eq, Option.some.injEq, eps]
    norm_num
  obtain ⟨cfA, hcfA⟩ := computeConfidenceC_ok
    ⟨"T".trim.toUpper, 1, .num 100, .num 90, .num 1, .num 50, .num (-2), .nan⟩
    (hema 1 (.num (-2)) .nan)
  obtain ⟨cfB, hcfB⟩ := computeConfidenceC_ok
    ⟨"T".trim.toUpper, 1, .num 100, .num 90, .num 1, .num 50, .num 0.001, .nan⟩
    (hema 1 (.num 0.001) .nan)
  have hasmA := assembleRowC_eval [] ("T".trim.toUpper) 1 (.nan : FieldVal)
    (by norm_num : (100:ℝ) ≠ 0) (by norm_num : (-2:ℝ) ≠ 0) cfA hcfA .buy hsigA
  have hasmB := assembleRowC_eval [] ("T".trim.toUpper) 1 (.nan : FieldVal)
    (by norm_num : (100:ℝ) ≠ 0) (by norm_num : (0.001:ℝ) ≠ 0) cfB hcfB .buy hsigB
  have hlive : pround2 (some (100:ℝ)) = some 100 :=
    pround2_eval 10000 (round_eval (by norm_num) (by norm_num)) (by norm_num)
  refine ⟨?_, ?_, by norm_num, by norm_num⟩
  · have hlat : latestRows (normTickers (dropNullClose [rowC3a])) =
        [⟨"T".trim.toUpper, 1, .num 100, .num 90, .num 1, .num 50, .num (-2), .nan⟩] := rfl
    unfold generateSignalsC
    rw [hlat]
    have hmm : List.mapM (assembleRowC [])
        [(⟨"T".trim.toUpper, 1, .num 100, .num 90, .num 1, .num 50, .num (-2), .nan⟩ : Row)] =
        .ok [⟨"T".trim.toUpper, nmLookup [] ("T".trim.toUpper), pround2 (some 100),
          pround2 cfA, .buy, pround2 (slTp (some 100) (some (-2)) .buy).1,
          pround2 (slTp (some 100) (some (-2)) .buy).2⟩] := by
      rw [List.mapM_cons, hasmA, List.mapM_nil]
      rfl
    rw [hmm]
    show Except.ok [((Signal.buy : Signal), pround2 (some (100:ℝ)),
      pround2 (slTp (some 100) (some (-2)) .buy).1,
      pround2 (slTp (some 100) (some (-2)) .buy).2)] = _
    rw [hlive]
    have hsl : pround2 (slTp (some (100:ℝ)) (some (-2)) .buy).1 = some 104 := by
      show pround2 (some (100 - 2 * (-2) : ℝ)) = some 104
      exact pround2_eval 10400 (round_eval (by norm_num) (by norm_num)) (by norm_num)
    have htp : pround2 (slTp (some (100:ℝ)) (some (-2)) .buy).2 = some 94 := by
      show pround2 (some (100 + 3 * (-2) : ℝ)) = some 94
      exact pround2_eval 9400 (round_eval (by norm_num) (by norm_num)) (by norm_num)
    rw [hsl, htp]
  · have hlat : latestRows (normTickers (dropNullClose [rowC3b])) =
        [⟨"T".trim.toUpper, 1, .num 100, .num 90, .num 1, .num 50, .num 0.001, .nan⟩] := rfl
    unfold generateSignalsC
    rw [hlat]
    have hmm : List.mapM (assembleRowC [])
        [(⟨"T".trim.toUpper, 1, .num 100, .num 90, .num 1, .num 50, .num 0.001, .nan⟩ : Row)] =
        .ok [⟨"T".trim.toUpper, nmLookup [] ("T".trim.toUpper), pround2 (some 100),
          pround2 cfB, .buy, pround2 (slTp (some 100) (some 0.001) .buy).1,
          pround2 (slTp (some 100) (some 0.001) .buy).2⟩] := by
      rw [List.mapM_cons, hasmB, List.mapM_nil]
      rfl
    rw [hmm]
    show Except.ok [((Signal.buy : Signal), pround2 (some (100:ℝ)),
      pround2 (slTp (some 100) (some 0.001) .buy).1,
      pround2 (slTp (some 100) (some 0.001) .buy).2)] = _
    rw [hlive]
    have hsl : pround2 (slTp (some (100:ℝ)) (some 0.001) .buy).1 = some 100 := by
      show pround2 (some (100 - 2 * 0.001 : ℝ)) = some 100
      exact pround2_eval 10000 (round_eval (by norm_num) (by norm_num)) (by norm_num)
    have htp : pround2 (slTp (some (100:ℝ)) (some 0.001) .buy).2 = some 100 := by
      show pround2 (some (100 + 3 * 0.001 : ℝ)) = some 100
      exact pround2_eval 10000 (round_eval (by norm_num) (by norm_num)) (by norm_num)
    rw [hsl, htp]

/-! ### C2: the latest-snapshot selector -/

theorem insertRow_perm (r : Row) (l : List Row) :
    (insertRow r l).Perm (r :: l) := by
  induction l with
  | nil => exact List.Perm.refl _
  | cons s t ih =>
    unfold insertRow
    cases hb : rowLeb r s with
    | true => exact List.Perm.refl _
    | false =>
      simp only [Bool.false_eq_true, if_false]
      exact (ih.cons s).trans (List.Perm.swap r s t)

theorem sortTable_perm (l : List Row) : (sortTable l).Perm l := by
  induction l with
  | nil => exact List.Perm.refl _
  | cons r t ih =>
    exact (insertRow_perm r (sortTable t)).trans (ih.cons r)

theorem rowLeb_le {a b : Row} (h : rowLeb a b = true) : a.ticker ≤ b.ticker := by
  simp only [rowLeb, Bool.or_eq_true, decide_eq_true_eq, Bool.and_eq_true,
    beq_iff_eq] at h
  rcases h with h | ⟨h, _⟩
  · exact le_of_lt h
  · exact le_of_eq h

theorem rowLeb_not {a b : Row} (h : rowLeb a b = false) : b.ticker ≤ a.ticker := by
  simp only [rowLeb, Bool.or_eq_false_iff, decide_eq_false_iff_not] at h
  exact le_of_not_lt h.1

theorem insertRow_pairwise (r : Row) {l : List Row}
    (h : l.Pairwise (fun a b => a.ticker ≤ b.ticker)) :
    (insertRow r l).Pairwise (fun a b => a.ticker ≤ b.ticker) := by
  induction l with
  | nil => simp [insertRow]
  | cons s t ih =>
    obtain ⟨hs, ht⟩ := List.pairwise_cons.mp h
    unfold insertRow
    cases hb : rowLeb r s with
    | true =>
      refine List.pairwise_cons.mpr ⟨?_, h⟩
      intro b hbmem
      rcases List.mem_cons.mp hbmem with rfl | hbt
      · exact rowLeb_le hb
      · exact le_trans (rowLeb_le hb) (hs b hbt)
    | false =>
      simp only [Bool.false_eq_true, if_false]
      refine List.pairwise_cons.mpr ⟨?_, ih ht⟩
      intro b hbmem
      have hbmem2 := (insertRow_perm r t).mem_iff.mp hbmem
      rcases List.mem_cons.mp hbmem2 with rfl | hbt
      · exact rowLeb_not hb
      · exact hs b hbt

theorem sortTable_pairwise (l : List Row) :
    (sortTable l).Pairwise (fun a b => a.ticker ≤ b.ticker) := by
  induction l with
  | nil => simp [sortTable]
  | cons r t ih => exact insertRow_pairwise r ih

theorem groupRuns_cons_nil {r : Row} {rs : List Row} (h : groupRuns rs = []) :
    groupRuns (r :: rs) = [[r]] := by
  unfold groupRuns
  rw [h]

theorem groupRuns_cons_cons {r : Row} {rs s g gs} (h : groupRuns rs = (s :: g) :: gs) :
    groupRuns (r :: rs) =
      if r.ticker == s.ticker then (r :: s :: g) :: gs
      else [r] :: (s :: g) :: gs := by
  unfold groupRuns
  rw [h]

theorem groupRuns_ne_nil : ∀ l : List Row, ∀ g ∈ groupRuns l, g ≠ [] := by
  intro l
  induction l with
  | nil => intro g hg; simp [groupRuns] at hg
  | cons r rs ih =>
    intro g hg
    cases hE : groupRuns rs with
    | nil =>
      rw [groupRuns_cons_nil hE] at hg
      obtain rfl := List.mem_singleton.mp hg
      simp
    | cons g0 gs =>
      cases g0 with
      | nil =>
        exact absurd rfl (ih [] (by rw [hE]; exact List.mem_cons_self _ _))
      | cons s g2 =>
        rw [groupRuns_cons_cons hE] at hg
        by_cases hb : r.ticker = s.ticker
        · rw [if_pos (by simp [hb])] at hg
          rcases List.mem_cons.mp hg with rfl | hgs
          · simp
          · exact ih g (by rw [hE]; exact List.mem_cons_of_mem _ hgs)
        · rw [if_neg (by simp [hb])] at hg
          rcases List.mem_cons.mp hg with rfl | hg2
          · simp
          · exact ih g (by rw [hE]; exact hg2)

theorem flatten_groupRuns : ∀ l : List Row, (groupRuns l).flatten = l := by
  intro l
  induction l with
  | nil => rfl
  | cons r rs ih =>
    cases hE : groupRuns rs with
    | nil =>
      have hrs : rs = [] := by
        rw [hE] at ih
        simpa using ih.symm
      subst hrs
      rw [groupRuns_cons_nil hE]
      rfl
    | cons g0 gs =>
      cases g0 with
      | nil =>
        exact absurd rfl
          (groupRuns_ne_nil rs [] (by rw [hE]; exact List.mem_cons_self _ _))
      | cons s g2 =>
        rw [hE, List.flatten_cons] at ih
        rw [groupRuns_cons_cons hE]
        by_cases hb : r.ticker = s.ticker
        · rw [if_pos (by simp [hb]), List.flatten_cons]
          rw [← ih]
          rfl
        · rw [if_neg (by simp [hb]), List.flatten_cons, List.flatten_cons]
          rw [← ih]
          rfl

theorem groupRuns_run_ticker : ∀ l : List Row, ∀ g ∈ groupRuns l,
    ∀ a ∈ g, ∀ b ∈ g, a.ticker = b.ticker := by
  intro l
  induction l with
  | nil => intro g hg; simp [groupRuns] at hg
  | cons r rs ih =>
    intro g hg a ha b hb
    cases hE : groupRuns rs with
    | nil =>
      rw [groupRuns_cons_nil hE] at hg
      obtain rfl := List.mem_singleton.mp hg
      obtain rfl := List.mem_singleton.mp ha
      obtain rfl := List.mem_singleton.mp hb
      rfl
    | cons g0 gs =>
      cases g0 with
      | nil =>
        exact absurd rfl (groupRuns_ne_nil rs []
          (by rw [hE]; exact List.mem_cons_self _ _))
      | cons s g2 =>
        have hsg : s :: g2 ∈ groupRuns rs := by
          rw [hE]; exact List.mem_cons_self _ _
        rw [groupRuns_cons_cons hE] at hg
        by_cases hbq : r.ticker = s.ticker
        · rw [if_pos (by simp [hbq])] at hg
          rcases List.mem_cons.mp hg with rfl | hgs
          · have key : ∀ x ∈ r :: s :: g2, x.ticker = s.ticker := by
              intro x hx
              rcases List.mem_cons.mp hx with rfl | hx2
              · exact hbq
              · exact ih (s :: g2) hsg x hx2 s (List.mem_cons_self _ _)
            rw [key a ha, key b hb]
          · exact ih g (by rw [hE]; exact List.mem_cons_of_mem _ hgs) a ha b hb
        · rw [if_neg (by simp [hbq])] at hg
          rcases List.mem_cons.mp hg with rfl | hg2
          · obtain rfl := List.mem_singleton.mp ha
            obtain rfl := List.mem_singleton.mp hb
            rfl
          · exact ih g (by rw [hE]; exact hg2) a ha b hb

theorem groupRuns_heads_count : ∀ l : List Row,
    l.Pairwise (fun a b => a.ticker ≤ b.ticker) → ∀ s : String,
    ((groupRuns l).map (fun g => (g.headD dummyRow).ticker)).count s =
      if s ∈ l.map Row.ticker then 1 else 0 := by
  intro l
  induction l with
  | nil => intro _ s; simp [groupRuns]
  | cons r rs ih =>
    intro hp s
    obtain ⟨hhead, hp2⟩ := List.pairwise_cons.mp hp
    cases hE : groupRuns rs with
    | nil =>
      have hrs : rs = [] := by
        have hf := flatten_groupRuns rs
        rw [hE] at hf
        simpa using hf.symm
      subst hrs
      rw [groupRuns_cons_nil hE]
      simp only [List.map_cons, List.map_nil, List.headD_cons,
        List.count_singleton, List.mem_singleton]
      by_cases hsr : s = r.ticker
      · subst hsr
        simp
      · rw [if_neg (by simp only [beq_iff_eq]; exact fun h => hsr h.symm), if_neg hsr]
    | cons g0 gs =>
      cases g0 with
      | nil =>
        exact absurd rfl (groupRuns_ne_nil rs []
          (by rw [hE]; exact List.mem_cons_self _ _))
      | cons s0 g2 =>
        have hf := flatten_groupRuns rs
        rw [hE, List.flatten_cons] at hf
        have hs0rs : s0 ∈ rs := by
          rw [← hf]
          exact List.mem_append_left _ (List.mem_cons_self _ _)
        have hihs := ih hp2 s
        rw [hE] at hihs
        rw [groupRuns_cons_cons hE]
        by_cases hb : r.ticker = s0.ticker
        · rw [if_pos (by simp [hb])]
          simp only [List.map_cons, List.headD_cons] at hihs ⊢
          simp only [hb]
          rw [hihs]
          have hmem : s0.ticker ∈ rs.map Row.ticker :=
            List.mem_map_of_mem Row.ticker hs0rs
          by_cases hsr : s = s0.ticker
          · subst hsr
            rw [if_pos hmem, if_pos (List.mem_cons_of_mem _ hmem)]
          · have h1 : (s ∈ s0.ticker :: rs.map Row.ticker) ↔ s ∈ rs.map Row.ticker := by
              rw [List.mem_cons]
              exact ⟨fun h => h.resolve_left hsr, Or.inr⟩
            rw [if_congr h1 rfl rfl]
        · rw [if_neg (by simp [hb])]
          simp only [List.map_cons, List.headD_cons] at hihs ⊢
          rw [List.count_cons, hihs]
          have hnotin : s = r.ticker → r.ticker ∉ rs.map Row.ticker := by
            rintro rfl hmem
            obtain ⟨b, hbrs, hbtk⟩ := List.mem_map.mp hmem
            obtain ⟨rest, hrest⟩ : ∃ rest, rs = s0 :: rest := ⟨g2 ++ gs.flatten, hf.symm⟩
            subst hrest
            rcases List.mem_cons.mp hbrs with rfl | hbrest
            · exact hb hbtk.symm
            · obtain ⟨hs0le, _⟩ := List.pairwise_cons.mp hp2
              have h1 : s0.ticker ≤ b.ticker := hs0le b hbrest
              have h2 : r.ticker ≤ s0.ticker := hhead s0 (List.mem_cons_self _ _)
              rw [hbtk] at h1
              exact hb (le_antisymm h2 h1)
          by_cases hsr : s = r.ticker
          · subst hsr
            rw [if_neg (hnotin rfl), if_pos (List.mem_cons_self _ _)]
            simp
          · have hne : (r.ticker == s) = false :=
              beq_eq_false_iff_ne.mpr (fun h => hsr h.symm)
            rw [hne]
            have h1 : (s ∈ r.ticker :: rs.map Row.ticker) ↔ s ∈ rs.map Row.ticker := by
              rw [List.mem_cons]
              exact ⟨fun h => h.resolve_left hsr, Or.inr⟩
            rw [if_congr h1 rfl rfl]
            simp

theorem latestRows_tickers (t : List Row) :
    (latestRows t).map Row.ticker =
      (groupRuns (sortTable t)).map (fun g => (g.headD dummyRow).ticker) := by
  unfold latestRows
  rw [List.map_map]
  apply List.map_congr_left
  intro g hg
  cases g with
  | nil =>
    exact absurd rfl (groupRuns_ne_nil _ [] hg)
  | cons a l => rfl

theorem lastNonNull_getLast {g : List Row} (f : Row → FieldVal) (hg : g ≠ [])
    (hnn : (f (g.getLast hg)).isNull = false) :
    lastNonNull f g = f (g.getLast hg) := by
  unfold lastNonNull
  conv_lhs => rw [← List.dropLast_append_getLast hg]
  rw [List.reverse_append]
  simp only [List.reverse_cons, List.reverse_nil, List.nil_append,
    List.singleton_append, List.find?_cons, hnn, Bool.not_false]

theorem getLastD_eq_getLast {g : List Row} (hg : g ≠ []) (d : Row) :
    g.getLastD d = g.getLast hg := by
  rw [List.getLastD_eq_getLast?, List.getLast?_eq_getLast g hg]
  rfl

/-- Claim C2 (corrected), amended part: the selector emits exactly one row
per distinct Ticker of the input table; and for a selected group whose
chronologically last row has no null cells, the emitted row is that last
input row unmodified.  (When the last row has null cells, pandas
GroupBy.last back-fills each column with the last non-null value of that column
of the group, so the emitted row need not be any input row — see the
counterexample.) -/
theorem C2_latest_selector (t : List Row) :
    (∀ s : String, ((latestRows t).map Row.ticker).count s =
      if s ∈ t.map Row.ticker then 1 else 0) ∧
    ∀ g ∈ groupRuns (sortTable t), ∀ hg : g ≠ [],
      allPresent (g.getLast hg) = true → aggRow g = g.getLast hg := by
  constructor
  · intro s
    rw [latestRows_tickers, groupRuns_heads_count (sortTable t) (sortTable_pairwise t) s]
    exact if_congr ((sortTable_perm t).map Row.ticker).mem_iff rfl rfl
  · intro g hgmem hg hall
    have htk := groupRuns_run_ticker (sortTable t) g hgmem
    have hlast : g.getLast hg ∈ g := List.getLast_mem hg
    simp only [allPresent, Bool.and_eq_true, Bool.not_eq_true'] at hall
    obtain ⟨⟨⟨⟨⟨hcl, hem⟩, hmc⟩, hrs⟩, hat⟩, hvl⟩ := hall
    cases g with
    | nil => exact absurd rfl hg
    | cons a l =>
      have hagg : aggRow (a :: l) =
          { ticker := a.ticker
            date := ((a :: l).getLastD dummyRow).date
            close := lastNonNull Row.close (a :: l)
            ema20 := lastNonNull Row.ema20 (a :: l)
            macd := lastNonNull Row.macd (a :: l)
            rsi := lastNonNull Row.rsi (a :: l)
            atr := lastNonNull Row.atr (a :: l)
            vol := lastNonNull Row.vol (a :: l) } := rfl
      rw [hagg]
      refine Row.ext ?_ ?_ ?_ ?_ ?_ ?_ ?_ ?_
      all_goals dsimp only
      · exact htk a (List.mem_cons_self _ _) _ hlast
      · rw [getLastD_eq_getLast hg dummyRow]
      · exact lastNonNull_getLast Row.close hg hcl
      · exact lastNonNull_getLast Row.ema20 hg hem
      · exact lastNonNull_getLast Row.macd hg hmc
      · exact lastNonNull_getLast Row.rsi hg hrs
      · exact lastNonNull_getLast Row.atr hg hat
      · exact lastNonNull_getLast Row.vol hg hvl

/-- Witness for C2 at a one-row table. -/
theorem C2_latest_selector_witness :
    ((latestRows [wRowC2]).map Row.ticker).count "A" = 1 ∧
    aggRow [wRowC2] = [wRowC2].getLast (by simp) := by
  have h := C2_latest_selector [wRowC2]
  constructor
  · have h1 := h.1 "A"
    rw [h1, if_pos (by simp [wRowC2])]
  · exact h.2 [wRowC2] (by
      show [wRowC2] ∈ [[wRowC2]]
      exact List.mem_singleton.mpr rfl) (by simp) rfl

/-- Claim C2 (corrected), counterexample: a two-row group in which the
chronologically last snapshot has a NaN ATR cell.  The selector emits the
last row with ATR back-filled from the earlier snapshot — a row equal to no
input row, so the output is not an unmodified single input row. -/
theorem C2_counterexample :
    latestRows [ceR1, ceR2] = [ceMix] ∧ ceMix ∉ [ceR1, ceR2] := by
  constructor
  · simp [latestRows, sortTable, insertRow, rowLeb, groupRuns, aggRow, lastNonNull,
      ceR1, ceR2, ceMix, FieldVal.isNull, dummyRow]
  · intro h
    simp only [List.mem_cons, List.not_mem_nil, or_false] at h
    rcases h with h | h <;> simp [ceMix, ceR1, ceR2, Row.mk.injEq] at h

/-! ### C7: Scenario A numerics -/

theorem exp_neg_taylor (q : ℝ) (h0 : 0 ≤ q) (h1 : q ≤ 1) :
    (∑ i ∈ Finset.range 8, (-q) ^ i / i.factorial) - q ^ 8 * (9 / 322560) ≤
      Real.exp (-q) ∧
    Real.exp (-q) ≤
      (∑ i ∈ Finset.range 8, (-q) ^ i / i.factorial) + q ^ 8 * (9 / 322560) := by
  have habs : |(-q : ℝ)| ≤ 1 := by rw [abs_neg, abs_of_nonneg h0]; exact h1
  have hb := @Real.exp_bound (-q) habs 8 (by norm_num)
  rw [abs_neg, abs_of_nonneg h0] at hb
  have h2 : ((Nat.succ 8 : ℕ) : ℝ) / ((Nat.factorial 8 : ℕ) * (8:ℕ)) = 9 / 322560 := by
    norm_num [Nat.factorial]
  rw [h2] at hb
  have h3 := abs_le.mp hb
  exact ⟨by linarith [h3.1], by linarith [h3.2]⟩

theorem exp_a_ge : (0.65635549 : ℝ) ≤ Real.exp (-(0.42105264 : ℝ)) := by
  obtain ⟨l1, _⟩ := exp_neg_taylor 0.42105264 (by norm_num) (by norm_num)
  refine le_trans ?_ l1
  simp only [Finset.sum_range_succ, Finset.sum_range_zero, Nat.factorial]
  norm_num

theorem exp_a_le : Real.exp (-(0.42105263 : ℝ)) ≤ 0.65635557 := by
  obtain ⟨_, u1⟩ := exp_neg_taylor 0.42105263 (by norm_num) (by norm_num)
  refine le_trans u1 ?_
  simp only [Finset.sum_range_succ, Finset.sum_range_zero, Nat.factorial]
  norm_num

theorem exp_b_ge : (0.54881077 : ℝ) ≤ Real.exp (-(0.6 : ℝ)) := by
  obtain ⟨l1, _⟩ := exp_neg_taylor 0.6 (by norm_num) (by norm_num)
  refine le_trans ?_ l1
  simp only [Finset.sum_range_succ, Finset.sum_range_zero, Nat.factorial]
  norm_num

theorem exp_b_le : Real.exp (-(0.6 : ℝ)) ≤ 0.54881172 := by
  obtain ⟨_, u1⟩ := exp_neg_taylor 0.6 (by norm_num) (by norm_num)
  refine le_trans u1 ?_
  simp only [Finset.sum_range_succ, Finset.sum_range_zero, Nat.factorial]
  norm_num

theorem trend_sigmoid_bounds :
    (0.60373 : ℝ) ≤ sigmoidR ((100 - 95) / (95 + eps) * 8) ∧
    sigmoidR ((100 - 95) / (95 + eps) * 8) ≤ 0.60374 := by
  have h95 : (0:ℝ) < 95 + eps := by norm_num [eps]
  have hx_lo : (0.42105263 : ℝ) ≤ (100 - 95) / (95 + eps) * 8 := by
    rw [div_mul_eq_mul_div, le_div_iff₀ h95]
    norm_num [eps]
  have hx_hi : (100 - 95) / (95 + eps) * 8 ≤ 0.42105264 := by
    rw [div_mul_eq_mul_div, div_le_iff₀ h95]
    norm_num [eps]
  constructor
  · refine le_trans ?_ (le_trans (sigmoidR_ge_of_exp_le exp_a_le) (sigmoidR_mono hx_lo))
    rw [le_div_iff₀ (by norm_num)]
    norm_num
  · refine le_trans
      (le_trans (sigmoidR_mono hx_hi) (sigmoidR_le_of_exp_ge (by norm_num) exp_a_ge)) ?_
    rw [div_le_iff₀ (by norm_num)]
    norm_num

theorem exp_12_bounds :
    (0.30119326 : ℝ) ≤ Real.exp (-(1.2 : ℝ)) ∧
    Real.exp (-(1.2 : ℝ)) ≤ 0.30119431 := by
  have hsplit : Real.exp (-(1.2:ℝ)) = Real.exp (-(0.6:ℝ)) * Real.exp (-(0.6:ℝ)) := by
    rw [← Real.exp_add]
    norm_num
  have hpos : (0:ℝ) ≤ Real.exp (-(0.6:ℝ)) := (Real.exp_pos _).le
  constructor
  · rw [hsplit]
    calc (0.30119326 : ℝ) ≤ 0.54881077 * 0.54881077 := by norm_num
    _ ≤ Real.exp (-(0.6:ℝ)) * Real.exp (-(0.6:ℝ)) :=
        mul_le_mul exp_b_ge exp_b_ge (by norm_num) hpos
  · rw [hsplit]
    calc Real.exp (-(0.6:ℝ)) * Real.exp (-(0.6:ℝ))
        ≤ 0.54881172 * 0.54881172 := mul_le_mul exp_b_le exp_b_le hpos (by norm_num)
    _ ≤ 0.30119431 := by norm_num

theorem vol_sigmoid_bounds :
    (0.76852 : ℝ) ≤ sigmoidR 1.2 ∧ sigmoidR 1.2 ≤ 0.76853 := by
  obtain ⟨hlo, hhi⟩ := exp_12_bounds
  constructor
  · refine le_trans ?_ (sigmoidR_ge_of_exp_le hhi)
    rw [le_div_iff₀ (by norm_num)]
    norm_num
  · refine le_trans (sigmoidR_le_of_exp_ge (by norm_num) hlo) ?_
    rw [div_le_iff₀ (by norm_num)]
    norm_num

theorem macd_sigmoid_bound :
    (0.9999 : ℝ) ≤ sigmoidR (1.5 / (|(100:ℝ)| * 0.0005 + eps)) := by
  have habs : |(100:ℝ)| = 100 := abs_of_pos (by norm_num)
  have hq : (29:ℝ) ≤ 1.5 / (|(100:ℝ)| * 0.0005 + eps) := by
    rw [habs, le_div_iff₀ (by norm_num [eps])]
    norm_num [eps]
  have h29 : Real.exp (-(29:ℝ)) ≤ 0.00000001 := by
    have h2e : (2:ℝ) ≤ Real.exp 1 := le_of_lt (lt_trans (by norm_num) Real.exp_one_gt_d9)
    have hpow : (2:ℝ) ^ (29:ℕ) ≤ (Real.exp 1) ^ (29:ℕ) :=
      pow_le_pow_left₀ (by norm_num) h2e 29
    have hexp29 : (Real.exp 1) ^ (29:ℕ) = Real.exp 29 := by
      rw [← Real.exp_nat_mul]
      norm_num
    rw [hexp29] at hpow
    rw [Real.exp_neg]
    have h0 : (0:ℝ) < 2 ^ (29:ℕ) := by positivity
    have hinv := inv_anti₀ h0 hpow
    refine le_trans hinv ?_
    rw [inv_le_comm₀ (by positivity) (by norm_num)]
    norm_num
  have hmono : Real.exp (-(1.5 / (|(100:ℝ)| * 0.0005 + eps))) ≤ Real.exp (-(29:ℝ)) :=
    Real.exp_le_exp.mpr (by linarith)
  refine le_trans ?_ (sigmoidR_ge_of_exp_le (le_trans hmono h29))
  rw [le_div_iff₀ (by norm_num)]
  norm_num

theorem trendScoreE_C7 : trendScoreE rowC7 =
    .ok (some (clamp01R (sigmoidR ((100 - 95) / (95 + eps) * 8)))) := by
  unfold trendScoreE rowC7
  dsimp only
  rw [safeVal_num_ne none (by norm_num : (100:ℝ) ≠ 0),
    safeVal_num_ne none (by norm_num : (95:ℝ) ≠ 0)]
  dsimp only
  rw [ndiv_ss (by norm_num [eps] : (95:ℝ) + eps ≠ 0)]
  rfl

theorem macdScoreE_C7 : macdScoreE rowC7 =
    .ok (some (clamp01R (sigmoidR (1.5 / (|(100:ℝ)| * 0.0005 + eps))))) := by
  unfold macdScoreE rowC7
  dsimp only
  rw [safeVal_num_ne (some 0) (by norm_num : (1.5:ℝ) ≠ 0),
    safeVal_num_ne none (by norm_num : (100:ℝ) ≠ 0)]
  dsimp only [pabs, pmul, padd]
  rw [ndiv_ss macd_denom_ne]
  rfl

theorem rsiScoreE_C7 : rsiScoreE rowC7 = .ok (some (5 / 6)) := by
  unfold rsiScoreE rowC7
  dsimp only
  rw [safeVal_num_ne (some 50) (by norm_num : (60:ℝ) ≠ 0)]
  dsimp only [psub, pabs]
  rw [ndiv_ss (by norm_num : (60:ℝ) ≠ 0)]
  dsimp only [psub, pclamp01]
  have h10 : |(60:ℝ) - 50| = 10 := by
    rw [show (60:ℝ) - 50 = 10 by norm_num]
    exact abs_of_pos (by norm_num)
  rw [h10, show (1:ℝ) - 10 / 60 = 5 / 6 by norm_num,
    clamp01R_eq_self (by norm_num) (by norm_num)]

theorem volScore_C7 : volScore rowC7 = some (clamp01R (sigmoidR 1.2)) := by
  unfold volScore rowC7
  dsimp only
  rw [safeVal_num_ne (some 1) (by norm_num : (1.2:ℝ) ≠ 0)]
  rfl

theorem decideSignal_C7 : decideSignal rowC7 = .buy := by
  unfold decideSignal rowC7
  dsimp only [FieldVal.get]
  rw [if_pos (by norm_num : (100:ℝ) > 95 ∧ (1.5:ℝ) > 0 ∧ (60:ℝ) < 70)]

theorem scenarioA_arith (t m v : ℝ) (ht1 : (0.60373:ℝ) ≤ t) (ht2 : t ≤ 0.60374)
    (hm1 : (0.9999:ℝ) ≤ m) (hm2 : m ≤ 1)
    (hv1 : (0.76852:ℝ) ≤ v) (hv2 : v ≤ 0.76853) :
    |t - 0.6037| ≤ 1 / 10000 ∧ |m - 1| ≤ 1 / 10000 ∧ |v - 0.7685| ≤ 1 / 10000 ∧
    |0.45 * t + 0.25 * m + 0.2 * (5 / 6) + 0.1 * v - 0.7652| ≤ 1 / 10000 ∧
    (0:ℝ) ≤ 0.5 + 0.5 * (0.45 * t + 0.25 * m + 0.2 * (5 / 6) + 0.1 * v) ∧
    0.5 + 0.5 * (0.45 * t + 0.25 * m + 0.2 * (5 / 6) + 0.1 * v) ≤ 1 ∧
    round ((0.5 + 0.5 * (0.45 * t + 0.25 * m + 0.2 * (5 / 6) + 0.1 * v)) * 100) =
      (88:ℤ) :=
  ⟨abs_le.mpr ⟨by linarith, by linarith⟩, abs_le.mpr ⟨by linarith, by linarith⟩,
    abs_le.mpr ⟨by linarith, by linarith⟩, abs_le.mpr ⟨by linarith, by linarith⟩,
    by linarith, by linarith, round_eval (by linarith) (by linarith)⟩

/-- Claim C7 (confirmed): on Scenario A (Close=100, EMA_20=95, MACD=1.5,
RSI_14=60, ATR=2, Vol_Ratio=1.2) the engine produces trend score 0.6037,
momentum score 1.0, oscillator score 5/6 = 0.8333, volume score 0.7685 and
weighted sum 0.7652 (all to within 1e-4), rounded Confidence 0.88,
Signal = Buy, StopLoss = 96.00 and TakeProfit = 106.00. -/
theorem C7_scenario_a :
    ∃ t m v c : ℝ,
      trendScoreE rowC7 = .ok (some t) ∧ |t - 0.6037| ≤ 1 / 10000 ∧
      macdScoreE rowC7 = .ok (some m) ∧ |m - 1| ≤ 1 / 10000 ∧
      rsiScoreE rowC7 = .ok (some (5 / 6)) ∧ |(5 / 6 : ℝ) - 0.8333| ≤ 1 / 10000 ∧
      volScore rowC7 = some v ∧ |v - 0.7685| ≤ 1 / 10000 ∧
      computeConfidence rowC7 = .ok (some c) ∧
      |0.45 * t + 0.25 * m + 0.2 * (5 / 6) + 0.1 * v - 0.7652| ≤ 1 / 10000 ∧
      pround2 (some c) = some 0.88 ∧
      decideSignal rowC7 = .buy ∧
      (apiComputeSignals [rowC7]).map
          (List.map fun s => (s.live, s.confidence, s.signal, s.sl, s.tp)) =
        .ok [(some (100:ℝ), some (0.88:ℝ), Signal.buy, some (96:ℝ), some (106:ℝ))] := by
  have htEq : clamp01R (sigmoidR ((100 - 95) / (95 + eps) * 8)) =
      sigmoidR ((100 - 95) / (95 + eps) * 8) :=
    clamp01R_eq_self (sigmoidR_pos _).le (sigmoidR_lt_one _).le
  have hmEq : clamp01R (sigmoidR (1.5 / (|(100:ℝ)| * 0.0005 + eps))) =
      sigmoidR (1.5 / (|(100:ℝ)| * 0.0005 + eps)) :=
    clamp01R_eq_self (sigmoidR_pos _).le (sigmoidR_lt_one _).le
  have hvEq : clamp01R (sigmoidR 1.2) = sigmoidR 1.2 :=
    clamp01R_eq_self (sigmoidR_pos _).le (sigmoidR_lt_one _).le
  obtain ⟨habsT, habsM, habsV, habsW, hin0, hin1, hround⟩ :=
    scenarioA_arith (clamp01R (sigmoidR ((100 - 95) / (95 + eps) * 8)))
      (clamp01R (sigmoidR (1.5 / (|(100:ℝ)| * 0.0005 + eps))))
      (clamp01R (sigmoidR 1.2))
      (by rw [htEq]; exact trend_sigmoid_bounds.1)
      (by rw [htEq]; exact trend_sigmoid_bounds.2)
      (by rw [hmEq]; exact macd_sigmoid_bound) (clamp01R_le_one _)
      (by rw [hvEq]; exact vol_sigmoid_bounds.1)
      (by rw [hvEq]; exact vol_sigmoid_bounds.2)
  have hcE : computeConfidence rowC7 =
      .ok (some (clamp01R (0.5 + 0.5 *
        (0.45 * clamp01R (sigmoidR ((100 - 95) / (95 + eps) * 8)) +
         0.25 * clamp01R (sigmoidR (1.5 / (|(100:ℝ)| * 0.0005 + eps))) +
         0.2 * (5 / 6) + 0.1 * clamp01R (sigmoidR 1.2))))) := by
    unfold computeConfidence
    rw [trendScoreE_C7, macdScoreE_C7, rsiScoreE_C7]
    dsimp only
    rw [volScore_C7]
    rfl
  have hcEq : clamp01R (0.5 + 0.5 *
      (0.45 * clamp01R (sigmoidR ((100 - 95) / (95 + eps) * 8)) +
       0.25 * clamp01R (sigmoidR (1.5 / (|(100:ℝ)| * 0.0005 + eps))) +
       0.2 * (5 / 6) + 0.1 * clamp01R (sigmoidR 1.2))) = 0.5 + 0.5 *
      (0.45 * clamp01R (sigmoidR ((100 - 95) / (95 + eps) * 8)) +
       0.25 * clamp01R (sigmoidR (1.5 / (|(100:ℝ)| * 0.0005 + eps))) +
       0.2 * (5 / 6) + 0.1 * clamp01R (sigmoidR 1.2)) :=
    clamp01R_eq_self hin0 hin1
  have h88 : pround2 (some (clamp01R (0.5 + 0.5 *
      (0.45 * clamp01R (sigmoidR ((100 - 95) / (95 + eps) * 8)) +
       0.25 * clamp01R (sigmoidR (1.5 / (|(100:ℝ)| * 0.0005 + eps))) +
       0.2 * (5 / 6) + 0.1 * clamp01R (sigmoidR 1.2))))) = some 0.88 := by
    rw [hcEq]
    exact pround2_eval 88 hround (by norm_num)
  have hcl7 : safeVal rowC7.close none = some 100 := by
    rw [show rowC7.close = FieldVal.num 100 from rfl]
    exact safeVal_num_ne none (by norm_num)
  have hat7 : safeVal rowC7.atr none = some 2 := by
    rw [show rowC7.atr = FieldVal.num 2 from rfl]
    exact safeVal_num_ne none (by norm_num)
  have hasm : assembleApp rowC7 = .ok ⟨rowC7.ticker.trim,
      nmLookup tickerNames ((rowC7.ticker.trim.splitOn "-").headD rowC7.ticker.trim).toUpper,
      pround2 (some 100), pround2 (some (clamp01R (0.5 + 0.5 *
        (0.45 * clamp01R (sigmoidR ((100 - 95) / (95 + eps) * 8)) +
         0.25 * clamp01R (sigmoidR (1.5 / (|(100:ℝ)| * 0.0005 + eps))) +
         0.2 * (5 / 6) + 0.1 * clamp01R (sigmoidR 1.2))))), .buy,
      pround2 (some (100 - 2 * 2)), pround2 (some (100 + 3 * 2))⟩ := by
    unfold assembleApp
    rw [hcE]
    dsimp only
    rw [hcl7, hat7, effAtrVal_some_ne _ (by norm_num : (2:ℝ) ≠ 0), decideSignal_C7]
    rfl
  have hlist : apiComputeSignals [rowC7] = .ok [⟨rowC7.ticker.trim,
      nmLookup tickerNames ((rowC7.ticker.trim.splitOn "-").headD rowC7.ticker.trim).toUpper,
      pround2 (some 100), pround2 (some (clamp01R (0.5 + 0.5 *
        (0.45 * clamp01R (sigmoidR ((100 - 95) / (95 + eps) * 8)) +
         0.25 * clamp01R (sigmoidR (1.5 / (|(100:ℝ)| * 0.0005 + eps))) +
         0.2 * (5 / 6) + 0.1 * clamp01R (sigmoidR 1.2))))), .buy,
      pround2 (some (100 - 2 * 2)), pround2 (some (100 + 3 * 2))⟩] := by
    unfold apiComputeSignals
    rw [show latestRows [rowC7] = [rowC7] from rfl, List.mapM_cons, hasm, List.mapM_nil]
    rfl
  have h100 : pround2 (some (100:ℝ)) = some 100 :=
    pround2_eval 10000 (round_eval (by norm_num) (by norm_num)) (by norm_num)
  have h96 : pround2 (some (100 - 2 * 2 : ℝ)) = some 96 :=
    pround2_eval 9600 (round_eval (by norm_num) (by norm_num)) (by norm_num)
  have h106 : pround2 (some (100 + 3 * 2 : ℝ)) = some 106 :=
    pround2_eval 10600 (round_eval (by norm_num) (by norm_num)) (by norm_num)
  refine ⟨clamp01R (sigmoidR ((100 - 95) / (95 + eps) * 8)),
    clamp01R (sigmoidR (1.5 / (|(100:ℝ)| * 0.0005 + eps))),
    clamp01R (sigmoidR 1.2), _,
    trendScoreE_C7, habsT, macdScoreE_C7, habsM, rsiScoreE_C7,
    abs_le.mpr ⟨by norm_num, by norm_num⟩, volScore_C7, habsV, hcE, habsW, h88,
    decideSignal_C7, ?_⟩
  rw [hlist]
  show Except.ok [(pround2 (some (100:ℝ)), pround2 (some (clamp01R (0.5 + 0.5 *
    (0.45 * clamp01R (sigmoidR ((100 - 95) / (95 + eps) * 8)) +
     0.25 * clamp01R (sigmoidR (1.5 / (|(100:ℝ)| * 0.0005 + eps))) +
     0.2 * (5 / 6) + 0.1 * clamp01R (sigmoidR 1.2))))), Signal.buy,
    pround2 (some (100 - 2 * 2 : ℝ)), pround2 (some (100 + 3 * 2 : ℝ)))] = _
  rw [h100, h88, h96, h106]

end NewsPulse
